import Mathlib

/-!
Formal model of the Alpha-One Credit Cockpit analytical core
(`src/module_b/analytics.py`, `src/module_b/data_loader.py`,
`src/utils/constants.py`), together with proofs of the behavioural
properties stated in the design specification.

Modelling conventions:
* pandas rows become `Bond` records; a NaN cell of a numeric column is
  `Option.none`, a defined cell is `Option.some q` with `q : ℚ`.
* Python floats are modelled by exact rationals.  The two numerical
  library calls that have no exact rational meaning are passed in as a
  `NumKernel` parameter: `np.std` (a real square root) and
  `scipy.optimize.curve_fit` for the Nelson-Siegel family (an iterative
  bounded optimizer).  `np.polyfit` for the quadratic family is ordinary
  least squares, which is exact linear algebra, and is embedded
  concretely (via the normal equations / Cramer's rule, which agree with
  numpy's SVD-based least squares on full-rank data; on rank-deficient
  data the embedded fallback produces the same fitted values at the
  sample points as numpy's minimum-norm solution).
* Python dicts keyed by sector become association lists in insertion
  order; `fit_sector_curves` rebuilds them from scratch exactly as the
  source does.
* `raise ValueError(...)` becomes an `Except.error`.
-/

/-! ### Constants (`src/utils/constants.py`) -/

def MIN_SAMPLES_FOR_REGRESSION : ℕ := 5

def LIQUIDITY_THRESHOLD : ℚ := 10000000

def LIQUIDITY_HIGH : ℚ := 5

def LIQUIDITY_LOW : ℚ := 3

def DEFAULT_FTP : ℚ := 0

def NON_TRADEABLE_ACCOUNTING : List String := ["HTM"]

/-! ### The portfolio table

One row of the analyzer's DataFrame.  The first block are the input
columns produced by the data loader; the last block are the derived
columns `Model_Yield`, `Residual`, `Z_Score` written by
`_calculate_z_scores` (NaN before any fit). -/

structure Bond where
  ticker : String
  sector : String
  accounting : String
  nominal : ℚ
  duration : Option ℚ
  yld : Option ℚ
  ftp : ℚ
  liquidity : ℚ
  netCarry : Option ℚ
  carryEff : Option ℚ
  isTradeable : Bool
  modelYield : Option ℚ
  residual : Option ℚ
  zScore : Option ℚ
deriving DecidableEq, Repr

/-! ### Fitted-curve records (`RegressionResult`, `NelsonSiegelResult`) -/

structure RegressionResult where
  sector : String
  a : ℚ
  b : ℚ
  c : ℚ
  r_squared : ℚ
  sample_count : ℕ
  dur_lo : ℚ
  dur_hi : ℚ
  residual_std : ℚ
deriving DecidableEq, Repr

structure NelsonSiegelResult where
  sector : String
  beta_0 : ℚ
  beta_1 : ℚ
  beta_2 : ℚ
  lambda_ : ℚ
  r_squared : ℚ
  sample_count : ℕ
  dur_lo : ℚ
  dur_hi : ℚ
  residual_std : ℚ
deriving DecidableEq, Repr

/-- The two numerical library routines with no exact rational embedding,
supplied as parameters.  `std` models `np.std` (population standard
deviation, a real square root); `nsFit` models the
`scipy.optimize.curve_fit` call of `_fit_nelson_siegel_curve` on the
clean (duration, yield) pairs — `none` is a raised optimizer exception
(caught by the source and treated as fit divergence), `some (β₀,β₁,β₂,λ)`
a converged parameter vector; `nsPredict` models the repository's
`nelson_siegel` model function (whose exact values are transcendental)
at a parameter vector and a duration. -/
structure NumKernel where
  std : List ℚ → ℚ
  nsFit : List (ℚ × ℚ) → Option (ℚ × ℚ × ℚ × ℚ)
  nsPredict : ℚ × ℚ × ℚ × ℚ → ℚ → ℚ

/-! ### Quadratic least squares (`np.polyfit(x, y, deg=2)`) over ℚ -/

def sumBy {α : Type} (f : α → ℚ) (l : List α) : ℚ := (l.map f).sum

/-- Moment `Σ xᵢᵏ` of the sample. -/
def mS (k : ℕ) (pts : List (ℚ × ℚ)) : ℚ := sumBy (fun p => p.1 ^ k) pts

/-- Moment `Σ xᵢᵏ·yᵢ` of the sample. -/
def mT (k : ℕ) (pts : List (ℚ × ℚ)) : ℚ := sumBy (fun p => p.1 ^ k * p.2) pts

/-- Determinant of the 3×3 normal-equation matrix of the quadratic fit. -/
def detA (pts : List (ℚ × ℚ)) : ℚ :=
  mS 4 pts * (mS 2 pts * mS 0 pts - mS 1 pts * mS 1 pts)
    - mS 3 pts * (mS 3 pts * mS 0 pts - mS 1 pts * mS 2 pts)
    + mS 2 pts * (mS 3 pts * mS 1 pts - mS 2 pts * mS 2 pts)

/-- Cramer numerator for the quadratic coefficient `a`. -/
def numA (pts : List (ℚ × ℚ)) : ℚ :=
  mT 2 pts * (mS 2 pts * mS 0 pts - mS 1 pts * mS 1 pts)
    - mS 3 pts * (mT 1 pts * mS 0 pts - mT 0 pts * mS 1 pts)
    + mS 2 pts * (mT 1 pts * mS 1 pts - mT 0 pts * mS 2 pts)

/-- Cramer numerator for the linear coefficient `b`. -/
def numB (pts : List (ℚ × ℚ)) : ℚ :=
  mS 4 pts * (mT 1 pts * mS 0 pts - mT 0 pts * mS 1 pts)
    - mT 2 pts * (mS 3 pts * mS 0 pts - mS 1 pts * mS 2 pts)
    + mS 2 pts * (mS 3 pts * mT 0 pts - mT 1 pts * mS 2 pts)

/-- Cramer numerator for the intercept `c`. -/
def numC (pts : List (ℚ × ℚ)) : ℚ :=
  mS 4 pts * (mS 2 pts * mT 0 pts - mS 1 pts * mT 1 pts)
    - mS 3 pts * (mS 3 pts * mT 0 pts - mS 2 pts * mT 1 pts)
    + mT 2 pts * (mS 3 pts * mS 1 pts - mS 2 pts * mS 2 pts)

/-- Determinant of the 2×2 normal-equation matrix of a straight-line fit
(used when the quadratic system is singular, i.e. fewer than three
distinct durations). -/
def det2 (pts : List (ℚ × ℚ)) : ℚ := mS 2 pts * mS 0 pts - mS 1 pts * mS 1 pts

/-- Mean of the sample yields (`np.mean(y)`); 0 on an empty sample. -/
def meanY (pts : List (ℚ × ℚ)) : ℚ :=
  if mS 0 pts = 0 then 0 else mT 0 pts / mS 0 pts

/-- Exact-arithmetic `np.polyfit(x, y, 2)`, returning `(a, b, c)` of the
least-squares quadratic `y = a·x² + b·x + c`.  Full-rank samples (three
or more distinct durations) are solved by Cramer's rule on the normal
equations; the rank-deficient fallbacks fit a least-squares line resp. a
constant, which produce the same fitted values at the sample durations
as numpy's minimum-norm solution. -/
def polyfit2 (pts : List (ℚ × ℚ)) : ℚ × ℚ × ℚ :=
  if detA pts ≠ 0 then
    (numA pts / detA pts, numB pts / detA pts, numC pts / detA pts)
  else if det2 pts ≠ 0 then
    (0, (mS 0 pts * mT 1 pts - mS 1 pts * mT 0 pts) / det2 pts,
        (mS 2 pts * mT 0 pts - mS 1 pts * mT 1 pts) / det2 pts)
  else
    (0, 0, meanY pts)

/-- Value of the quadratic `a·x² + b·x + c` (`np.polyval`). -/
def predQ (a b c x : ℚ) : ℚ := a * x ^ 2 + b * x + c

/-- Residual sum of squares of the quadratic `(a, b, c)` on the sample. -/
def ssAbout (pts : List (ℚ × ℚ)) (a b c : ℚ) : ℚ :=
  sumBy (fun p => (p.2 - predQ a b c p.1) ^ 2) pts

/-- Total sum of squares `Σ (yᵢ − ȳ)²` of the sample. -/
def ssTot (pts : List (ℚ × ℚ)) : ℚ :=
  sumBy (fun p => (p.2 - meanY pts) ^ 2) pts

/-- Smallest element of a rational list, 0 on `[]` (`np.min` is only
applied to nonempty samples in the source). -/
def listMin : List ℚ → ℚ
  | [] => 0
  | h :: t => t.foldl min h

/-- Largest element of a rational list, 0 on `[]`. -/
def listMax : List ℚ → ℚ
  | [] => 0
  | h :: t => t.foldl max h

/-! ### The analyzer (`PortfolioAnalyzer`) -/

/-- Rows whose Duration and Yield are both non-null
(`sector_df["Duration"].notna() & sector_df["Yield"].notna()`). -/
def isClean (bd : Bond) : Bool := bd.duration.isSome && bd.yld.isSome

/-- Clean (duration, yield) pairs of a row list. -/
def cleanPts (l : List Bond) : List (ℚ × ℚ) :=
  (l.filter isClean).map (fun bd => (bd.duration.getD 0, bd.yld.getD 0))

/-- `PortfolioAnalyzer._fit_single_curve`. -/
def fit_single_curve (k : NumKernel) (sector : String) (sector_df : List Bond) :
    Option RegressionResult :=
  let clean := sector_df.filter isClean
  if clean.length < MIN_SAMPLES_FOR_REGRESSION then none
  else
    let pts := cleanPts sector_df
    let abc := polyfit2 pts
    let ssr := ssAbout pts abc.1 abc.2.1 abc.2.2
    let sst := ssTot pts
    some
      { sector := sector
        a := abc.1, b := abc.2.1, c := abc.2.2
        r_squared := if sst > 0 then 1 - ssr / sst else 0
        sample_count := clean.length
        dur_lo := listMin (pts.map Prod.fst)
        dur_hi := listMax (pts.map Prod.fst)
        residual_std := k.std (pts.map (fun p => p.2 - predQ abc.1 abc.2.1 abc.2.2 p.1)) }

/-- `PortfolioAnalyzer._fit_nelson_siegel_curve`.  The initial guess,
bounds and iteration cap of the source are folded into the `nsFit`
kernel, which is a deterministic function of the clean sample; a `none`
result covers both optimizer non-convergence and the raised exceptions
the source catches. -/
def fit_nelson_siegel_curve (k : NumKernel) (sector : String) (sector_df : List Bond) :
    Option NelsonSiegelResult :=
  let clean := sector_df.filter isClean
  if clean.length < MIN_SAMPLES_FOR_REGRESSION then none
  else
    let pts := cleanPts sector_df
    match k.nsFit pts with
    | none => none
    | some prm =>
      let ssr := sumBy (fun p => (p.2 - k.nsPredict prm p.1) ^ 2) pts
      let sst := ssTot pts
      some
        { sector := sector
          beta_0 := prm.1, beta_1 := prm.2.1, beta_2 := prm.2.2.1, lambda_ := prm.2.2.2
          r_squared := if sst > 0 then 1 - ssr / sst else 0
          sample_count := clean.length
          dur_lo := listMin (pts.map Prod.fst)
          dur_hi := listMax (pts.map Prod.fst)
          residual_std := k.std (pts.map (fun p => p.2 - k.nsPredict prm p.1)) }

/-- Analyzer state: the copied DataFrame, the model type, the two
result dictionaries and the fitted flag. -/
structure AnalyzerState where
  df : List Bond
  modelType : String
  regressionResults : List (String × RegressionResult)
  nsResults : List (String × NelsonSiegelResult)
  isFitted : Bool
deriving Repr

/-- `PortfolioAnalyzer.__init__` (the caller's frame is copied; aliasing
is studied separately with an explicit heap below). -/
def PortfolioAnalyzer.init (df : List Bond) (modelType : String) : AnalyzerState :=
  { df := df
    modelType := modelType
    regressionResults := []
    nsResults := []
    isFitted := false }

/-- `self.df["Sector_L1"].unique()` — sector names in order of first
appearance. -/
def uniqueSectors (df : List Bond) : List String :=
  df.foldl (fun acc bd => if bd.sector ∈ acc then acc else acc ++ [bd.sector]) []

/-- The column reset `Model_Yield = Residual = Z_Score = NaN` performed
at the top of `_calculate_z_scores`. -/
def clearScores (bd : Bond) : Bond :=
  { bd with modelYield := none, residual := none, zScore := none }

/-- Scoring of one row against the fitted curve of its sector:
model yield, residual, and the guarded Z-score. -/
def scoreWith (predict : Option ℚ → Option ℚ) (rstd : ℚ) (bd : Bond) : Bond :=
  let my := predict bd.duration
  let res := match bd.yld, my with
    | some y, some m => some (y - m)
    | _, _ => none
  { bd with
      modelYield := my
      residual := res
      zScore := if rstd > 0 then res.map (fun r => r / rstd) else none }

/-- One row of `_calculate_z_scores` in quadratic mode: rows of fitted
sectors are scored against their curve, the rest keep the NaN reset. -/
def scoreQuad (regs : List (String × RegressionResult)) (bd : Bond) : Bond :=
  match regs.lookup bd.sector with
  | some r => scoreWith (Option.map (predQ r.a r.b r.c)) r.residual_std (clearScores bd)
  | none => clearScores bd

/-- One row of `_calculate_z_scores` in Nelson-Siegel mode. -/
def scoreNS (k : NumKernel) (nss : List (String × NelsonSiegelResult)) (bd : Bond) : Bond :=
  match nss.lookup bd.sector with
  | some r =>
      scoreWith (Option.map (k.nsPredict (r.beta_0, r.beta_1, r.beta_2, r.lambda_)))
        r.residual_std (clearScores bd)
  | none => clearScores bd

/-- `PortfolioAnalyzer._calculate_z_scores`: the three derived columns
are reset to NaN and then recomputed for every row whose sector has a
fitted curve (of the active model family). -/
def calculate_z_scores (k : NumKernel) (modelType : String)
    (regs : List (String × RegressionResult))
    (nss : List (String × NelsonSiegelResult)) (df : List Bond) : List Bond :=
  df.map (fun bd =>
    if modelType == "nelson_siegel" then scoreNS k nss bd else scoreQuad regs bd)

/-- One step of the per-sector loop of `fit_sector_curves`. -/
def fitStep (k : NumKernel) (s : AnalyzerState) (minSamples : ℕ)
    (acc : List (String × RegressionResult) × List (String × NelsonSiegelResult))
    (sector : String) :
    List (String × RegressionResult) × List (String × NelsonSiegelResult) :=
  let sector_df := s.df.filter (fun bd => bd.sector == sector)
  if sector_df.length < minSamples then acc
  else if s.modelType == "nelson_siegel" then
    match fit_nelson_siegel_curve k sector sector_df with
    | some r => (acc.1, acc.2 ++ [(sector, r)])
    | none => acc
  else
    match fit_single_curve k sector sector_df with
    | some r => (acc.1 ++ [(sector, r)], acc.2)
    | none => acc

/-- `PortfolioAnalyzer.fit_sector_curves`: both result dictionaries are
replaced wholesale, each qualifying sector is fitted with the active
model family, Z-scores are recomputed, and the fitted flag is set. -/
def fit_sector_curves (k : NumKernel) (minSamples : ℕ)
    (sectors : Option (List String)) (s : AnalyzerState) : AnalyzerState :=
  let secs := sectors.getD (uniqueSectors s.df)
  let res := secs.foldl (fitStep k s minSamples) ([], [])
  { df := calculate_z_scores k s.modelType res.1 res.2 s.df
    modelType := s.modelType
    regressionResults := res.1
    nsResults := res.2
    isFitted := true }

/-! ### Screeners (`get_sell_candidates`, `get_buy_candidates`,
`get_bleeding_assets`) -/

/-- Sort key of a row for `sort_values`: a NaN cell sorts last. -/
def optKey (v : Option ℚ) : WithTop ℚ :=
  match v with
  | some q => (q : WithTop ℚ)
  | none => ⊤

def zKey (bd : Bond) : WithTop ℚ := optKey bd.zScore

def ncKey (bd : Bond) : WithTop ℚ := optKey bd.netCarry

/-- `DataFrame.sort_values(col)` (ascending). -/
def sortAscBy (key : Bond → WithTop ℚ) (l : List Bond) : List Bond :=
  l.insertionSort (fun x y => key x ≤ key y)

/-- `DataFrame.sort_values(col, ascending=False)`. -/
def sortDescBy (key : Bond → WithTop ℚ) (l : List Bond) : List Bond :=
  l.insertionSort (fun x y => key y ≤ key x)

/-- A pandas comparison of a possibly-NaN cell with a constant:
NaN compares false. -/
def optLt (v : Option ℚ) (t : ℚ) : Bool :=
  match v with
  | some q => decide (q < t)
  | none => false

def optGt (v : Option ℚ) (t : ℚ) : Bool :=
  match v with
  | some q => decide (t < q)
  | none => false

/-- The row mask of `get_sell_candidates`. -/
def sellMask (z_threshold : ℚ) (max_net_carry : Option ℚ) (exclude_htm : Bool)
    (bd : Bond) : Bool :=
  optLt bd.zScore z_threshold
    && (match max_net_carry with
        | some m => optLt bd.netCarry m
        | none => true)
    && (!exclude_htm || bd.isTradeable)

/-- `PortfolioAnalyzer.get_sell_candidates`; the `ValueError` raised on
an unfitted analyzer is an `Except.error`. -/
def get_sell_candidates (z_threshold : ℚ) (max_net_carry : Option ℚ)
    (exclude_htm : Bool) (s : AnalyzerState) : Except String (List Bond) :=
  if !s.isFitted then .error "Must call fit_sector_curves() first"
  else .ok (sortAscBy zKey (s.df.filter (sellMask z_threshold max_net_carry exclude_htm)))

/-- The row mask of `get_buy_candidates`. -/
def buyMask (z_threshold : ℚ) (min_net_carry : Option ℚ) (min_liquidity : ℚ)
    (bd : Bond) : Bool :=
  optGt bd.zScore z_threshold
    && decide (min_liquidity ≤ bd.liquidity)
    && (match min_net_carry with
        | some m => optGt bd.netCarry m
        | none => true)

/-- `PortfolioAnalyzer.get_buy_candidates`. -/
def get_buy_candidates (z_threshold : ℚ) (min_net_carry : Option ℚ)
    (min_liquidity : ℚ) (s : AnalyzerState) : Except String (List Bond) :=
  if !s.isFitted then .error "Must call fit_sector_curves() first"
  else .ok (sortDescBy zKey (s.df.filter (buyMask z_threshold min_net_carry min_liquidity)))

/-- The row mask of `get_bleeding_assets`. -/
def bleedMask (exclude_htm : Bool) (bd : Bond) : Bool :=
  optLt bd.netCarry 0 && (!exclude_htm || bd.isTradeable)

/-- `PortfolioAnalyzer.get_bleeding_assets` — no fitted-state check. -/
def get_bleeding_assets (exclude_htm : Bool) (s : AnalyzerState) : List Bond :=
  sortAscBy ncKey (s.df.filter (bleedMask exclude_htm))

/-! ### Portfolio metrics (`calculate_portfolio_metrics`) -/

structure PortfolioMetrics where
  total_aum : ℚ
  weighted_duration : ℚ
  weighted_yield : ℚ
  weighted_net_carry : ℚ
  negative_carry_count : ℕ
  negative_carry_exposure : ℚ
  htim_count : ℕ
  htm_exposure : ℚ
  tradeable_count : ℕ
  tradeable_exposure : ℚ
  sector_exposures : List (String × ℚ)
  accounting_breakdown : List (String × ℚ)
deriving DecidableEq, Repr

/-- `(df[col] * df["Nominal_USD"]).sum() / total_aum if total_aum > 0
else 0`; a NaN product term is skipped by the pandas sum. -/
def weightedAvg (df : List Bond) (col : Bond → Option ℚ) : ℚ :=
  let total := sumBy Bond.nominal df
  if total > 0 then
    (df.filterMap (fun bd => (col bd).map (fun v => v * bd.nominal))).sum / total
  else 0

/-- Distinct values of a string column, in order of first appearance. -/
def uniqueKeys (keyOf : Bond → String) (df : List Bond) : List String :=
  df.foldl (fun acc bd => if keyOf bd ∈ acc then acc else acc ++ [keyOf bd]) []

/-- `df.groupby(key)["Nominal_USD"].sum().sort_values(ascending=False)`. -/
def exposuresBy (keyOf : Bond → String) (df : List Bond) : List (String × ℚ) :=
  ((uniqueKeys keyOf df).map
      (fun sec => (sec, sumBy Bond.nominal (df.filter (fun bd => keyOf bd == sec))))).insertionSort
    (fun x y => y.2 ≤ x.2)

/-- `PortfolioAnalyzer.calculate_portfolio_metrics`. -/
def calculate_portfolio_metrics (df : List Bond) : PortfolioMetrics :=
  { total_aum := sumBy Bond.nominal df
    weighted_duration := weightedAvg df Bond.duration
    weighted_yield := weightedAvg df Bond.yld
    weighted_net_carry := weightedAvg df Bond.netCarry
    negative_carry_count := (df.filter (fun bd => optLt bd.netCarry 0)).length
    negative_carry_exposure := sumBy Bond.nominal (df.filter (fun bd => optLt bd.netCarry 0))
    htim_count := (df.filter (fun bd => bd.accounting == "HTM")).length
    htm_exposure := sumBy Bond.nominal (df.filter (fun bd => bd.accounting == "HTM"))
    tradeable_count := (df.filter Bond.isTradeable).length
    tradeable_exposure := sumBy Bond.nominal (df.filter Bond.isTradeable)
    sector_exposures := exposuresBy Bond.sector df
    accounting_breakdown := exposuresBy Bond.accounting df }

/-! ### Data loader enrichment (`DataLoader._enrich_data`) -/

/-- `DataLoader._enrich_data` on one row: liquidity proxy from notional
size, `Net_Carry = Yield - FTP`, the division-guarded
`Carry_Efficiency = Net_Carry / Duration`, and the tradeable flag.  At
this pipeline stage FTP has already been filled with `DEFAULT_FTP`, so
it is never NaN. -/
def enrich_bond (bd : Bond) : Bond :=
  { bd with
      liquidity := if LIQUIDITY_THRESHOLD < bd.nominal then LIQUIDITY_HIGH else LIQUIDITY_LOW
      netCarry := bd.yld.map (fun y => y - bd.ftp)
      carryEff :=
        match bd.duration with
        | none => none
        | some d => if d ≠ 0 then bd.yld.map (fun y => (y - bd.ftp) / d) else none
      isTradeable := !(NON_TRADEABLE_ACCOUNTING.contains bd.accounting) }

/-- `DataLoader._enrich_data` on the whole frame. -/
def enrich_data (df : List Bond) : List Bond := df.map enrich_bond

/-! ### Executive summary (`generate_executive_summary`) -/

/-- Fixed-point decimal rendering of a rational, standing in for
Python's `f"{v:.2f}"`-style float formatting (the specification treats
the exact float formatting as out of scope). -/
def formatFixed (q : ℚ) (digits : ℕ) : String :=
  let n : ℤ := round (q * (10 : ℚ) ^ digits)
  let sign := if n < 0 then "-" else ""
  let m := n.natAbs
  if digits = 0 then sign ++ toString m
  else
    let fs := toString (m % 10 ^ digits)
    let pad := String.mk (List.replicate (digits - fs.length) '0')
    sign ++ toString (m / 10 ^ digits) ++ "." ++ pad ++ fs

/-- Three-digit zero-padded group for thousands formatting. -/
def pad3 (m : ℕ) : String :=
  let s := toString m
  String.mk (List.replicate (3 - s.length) '0') ++ s

/-- Thousands-separated rendering of a natural number (`f"{n:,}"`). -/
def commaGroup (n : ℕ) : String :=
  if n < 1000 then toString n
  else commaGroup (n / 1000) ++ "," ++ pad3 (n % 1000)
termination_by n
decreasing_by exact Nat.div_lt_self (by omega) (by omega)

/-- The report's `format_usd` helper. -/
def format_usd (v : ℚ) : String :=
  if v ≥ 1000000000 then "$" ++ formatFixed (v / 1000000000) 2 ++ "B"
  else if v ≥ 1000000 then "$" ++ formatFixed (v / 1000000) 2 ++ "M"
  else
    let n := round v
    (if n < 0 then "$-" else "$") ++ commaGroup n.natAbs

/-- NaN-skipping per-sector mean of the Z-score column
(`df.groupby("Sector_L1")["Z_Score"].mean()` for one sector); `none` is
the NaN mean of an all-NaN group. -/
def avgZ (df : List Bond) (sec : String) : Option ℚ :=
  let zs := (df.filter (fun bd => bd.sector == sec)).filterMap Bond.zScore
  if zs.length = 0 then none else some (zs.sum / zs.length)

/-- Sector names in the sorted key order pandas `groupby` produces. -/
def sectorKeysSorted (df : List Bond) : List String :=
  (uniqueSectors df).insertionSort (fun a b => a ≤ b)

/-- `groupby("Sector_L1")["Z_Score"].mean().sort_values().head(3)`:
the three sectors with the lowest mean Z-score, NaN means last. -/
def richestSectors (df : List Bond) : List (String × Option ℚ) :=
  (((sectorKeysSorted df).map (fun sec => (sec, avgZ df sec))).insertionSort
    (fun x y => optKey x.2 ≤ optKey y.2)).take 3

/-- One row of the richest-sector table, with the qualitative label
(NaN means compare false in both branches, yielding "Slightly Rich"). -/
def richRow (p : String × Option ℚ) : String :=
  let zs := match p.2 with
    | some q => formatFixed q 2
    | none => "nan"
  let interp := match p.2 with
    | some q =>
        if q < -1 then "Very Rich" else if q < -(1/2) then "Moderately Rich" else "Slightly Rich"
    | none => "Slightly Rich"
  "| " ++ p.1 ++ " | " ++ zs ++ " | " ++ interp ++ " |\n"

/-- One row of the sector-allocation table. -/
def allocRow (total : ℚ) (p : String × ℚ) : String :=
  "| " ++ p.1 ++ " | " ++ format_usd p.2 ++ " | " ++ formatFixed (p.2 / total * 100) 1 ++ "% |\n"

/-- `PortfolioAnalyzer.generate_executive_summary`.  It first computes
the metrics from the current frame, then calls `get_sector_summary`,
which fits the curves when the analyzer is not yet fitted (that call's
aggregated table does not feed the report text); the returned state is
the analyzer after that possible implicit fit. -/
def generate_executive_summary (k : NumKernel) (s : AnalyzerState) : String × AnalyzerState :=
  let metrics := calculate_portfolio_metrics s.df
  let s1 := if s.isFitted then s else fit_sector_curves k MIN_SAMPLES_FOR_REGRESSION none s
  let n := s1.df.length
  let highLiq := (s1.df.filter (fun bd => decide ((5 : ℚ) ≤ bd.liquidity))).length
  let lowLiq := (s1.df.filter (fun bd => decide (bd.liquidity < (5 : ℚ)))).length
  let part1 := "\n## Portfolio Executive Summary\n\n### Overview\n| Metric | Value |\n|--------|-------|\n| **Total AUM** | " ++ format_usd metrics.total_aum ++ " |\n| **Number of Holdings** | " ++ commaGroup n ++ " |\n| **Weighted Duration** | " ++ formatFixed metrics.weighted_duration 2 ++ " years |\n| **Weighted Yield** | " ++ formatFixed (metrics.weighted_yield * 100) 2 ++ "% |\n| **Weighted Net Carry** | " ++ formatFixed (metrics.weighted_net_carry * 100) 2 ++ "% |\n"
  let part2 := "\n### Risk Flags\n| Flag | Count | Exposure |\n|------|-------|----------|\n| **Negative Carry (Bleeding)** | " ++ toString metrics.negative_carry_count ++ " | " ++ format_usd metrics.negative_carry_exposure ++ " |\n| **HTM (Non-Tradeable)** | " ++ toString metrics.htim_count ++ " | " ++ format_usd metrics.htm_exposure ++ " |\n"
  let part3 := "\n### Top 3 \"Richest\" Sectors (Potential Sell Pressure)\nSectors with negative average Z-scores are trading expensive relative to their curves.\n\n| Sector | Avg Z-Score | Interpretation |\n|--------|-------------|----------------|\n" ++ String.join ((richestSectors s1.df).map richRow)
  let part4 := "\n### Liquidity Profile\n- **High Liquidity (Score >= 5):** " ++ toString highLiq ++ " bonds (" ++ formatFixed ((highLiq : ℚ) / (n : ℚ) * 100) 1 ++ "%)\n- **Lower Liquidity (Score < 5):** " ++ toString lowLiq ++ " bonds (" ++ formatFixed ((lowLiq : ℚ) / (n : ℚ) * 100) 1 ++ "%)\n"
  let part5 := "\n### Sector Allocation\n| Sector | Exposure | % of Portfolio |\n|--------|----------|----------------|\n" ++ String.join ((metrics.sector_exposures.take 5).map (allocRow metrics.total_aum))
  let part6 := "\n---\n*Report generated by Alpha-One Credit Cockpit*\n"
  (part1 ++ part2 ++ part3 ++ part4 ++ part5 ++ part6, s1)

/-! ### Aliasing model for the constructor's `df.copy()`

pandas DataFrames are mutable heap objects; to reason about the
caller's frame we make the heap explicit.  A `PandasHeap` cell holds one
frame; `analyzer_init_heap` is `PortfolioAnalyzer.__init__`, which
allocates a fresh cell holding a copy of the caller's frame
(`self.df = df.copy()`); every later operation of the analyzer touches
at most the analyzer's own cell. -/

structure PandasHeap where
  cells : List (List Bond)
deriving Repr

def readCell (h : PandasHeap) (i : ℕ) : List Bond := h.cells.getD i []

def writeCell (h : PandasHeap) (i : ℕ) (v : List Bond) : PandasHeap := ⟨h.cells.set i v⟩

/-- The analyzer object: a reference to its own frame cell plus the
non-shared attributes. -/
structure AnalyzerObj where
  dfRef : ℕ
  modelType : String
  regressionResults : List (String × RegressionResult)
  nsResults : List (String × NelsonSiegelResult)
  isFitted : Bool
deriving Repr

/-- `PortfolioAnalyzer.__init__(df, model_type)` against the heap:
`self.df = df.copy()` allocates a fresh cell with the caller frame's
current contents. -/
def analyzer_init_heap (h : PandasHeap) (callerRef : ℕ) (modelType : String) :
    PandasHeap × AnalyzerObj :=
  (⟨h.cells ++ [readCell h callerRef]⟩,
   { dfRef := h.cells.length
     modelType := modelType
     regressionResults := []
     nsResults := []
     isFitted := false })

/-- View of the analyzer's value state through the heap. -/
def objState (h : PandasHeap) (a : AnalyzerObj) : AnalyzerState :=
  { df := readCell h a.dfRef
    modelType := a.modelType
    regressionResults := a.regressionResults
    nsResults := a.nsResults
    isFitted := a.isFitted }

/-- Write an updated analyzer state back: the frame goes to the
analyzer's own cell, the rest into the object. -/
def putState (h : PandasHeap) (a : AnalyzerObj) (s : AnalyzerState) :
    PandasHeap × AnalyzerObj :=
  (writeCell h a.dfRef s.df,
   { a with
       regressionResults := s.regressionResults
       nsResults := s.nsResults
       isFitted := s.isFitted })

/-- The public operations a caller can run after construction.  The
screener and metrics calls return fresh filtered copies and never write
through `self.df`; `fitCurves` and `summary` (whose
`get_sector_summary` may fit implicitly) write derived columns, and only
into the analyzer's own cell. -/
inductive AnalyzerOp where
  | fitCurves (minSamples : ℕ) (sectors : Option (List String))
  | sell (t : ℚ) (mnc : Option ℚ) (excl : Bool)
  | buy (t : ℚ) (mnc : Option ℚ) (minLiq : ℚ)
  | bleeding (excl : Bool)
  | metrics
  | summary
deriving Repr

def runOp (k : NumKernel) (p : PandasHeap × AnalyzerObj) (op : AnalyzerOp) :
    PandasHeap × AnalyzerObj :=
  match op with
  | .fitCurves m secs => putState p.1 p.2 (fit_sector_curves k m secs (objState p.1 p.2))
  | .sell _ _ _ => p
  | .buy _ _ _ => p
  | .bleeding _ => p
  | .metrics => p
  | .summary => putState p.1 p.2 (generate_executive_summary k (objState p.1 p.2)).2

def runOps (k : NumKernel) (p : PandasHeap × AnalyzerObj) (ops : List AnalyzerOp) :
    PandasHeap × AnalyzerObj :=
  ops.foldl (runOp k) p

/-! ### Concrete kernels and sample data for evaluating the theorems -/

/-- Population variance (`np.var` with `ddof=0`). -/
def popVar (l : List ℚ) : ℚ :=
  if l.length = 0 then 0 else sumBy (fun x => (x - l.sum / l.length) ^ 2) l / l.length

/-- Concrete stand-in for `np.std` in evaluations: 0 exactly on samples
of zero variance, 1 otherwise.  These are the only facts about `np.std`
(a nonnegative square root, zero exactly on constant samples) that the
analyzer's control flow consumes. -/
def stdSign (l : List ℚ) : ℚ := if popVar l = 0 then 0 else 1

/-- Kernel for evaluating quadratic-model runs; the Nelson-Siegel
entries are never consulted by the quadratic branch. -/
def quadKernel : NumKernel :=
  { std := stdSign, nsFit := fun _ => none, nsPredict := fun _ _ => 0 }

/-- Kernel whose `std` is constantly 0.  It agrees with `np.std` on
exact-fit samples (all residuals zero), which is the only place it is
used below; the constant function keeps concrete evaluations small. -/
def zeroStdKernel : NumKernel :=
  { std := fun _ => 0, nsFit := fun _ => none, nsPredict := fun _ _ => 0 }

/-- Kernel instantiating the Nelson-Siegel optimizer interface with the
within-bounds parameter vector (1/2, 0, 0, 1).  With β₁ = β₂ = 0 the
repository's `nelson_siegel` function is exactly the constant β₀ at
every duration, so `nsPredict` here agrees exactly with the source's
model function on the returned parameters. -/
def nsConstKernel : NumKernel :=
  { std := stdSign, nsFit := fun _ => some (1/2, 0, 0, 1), nsPredict := fun p _ => p.1 }

/-- A fully populated default row for building concrete frames. -/
def sampleBond : Bond :=
  { ticker := "B0"
    sector := "A"
    accounting := "AFS"
    nominal := 1000000
    duration := some 1
    yld := some (3/100)
    ftp := 1/100
    liquidity := 5
    netCarry := some (2/100)
    carryEff := some (2/100)
    isTradeable := true
    modelYield := none
    residual := none
    zScore := none }

/-- Row of sector "A" at a given duration and yield. -/
def bondAt (tick : String) (dur yl : ℚ) : Bond :=
  { sampleBond with ticker := tick, duration := some dur, yld := some yl }

/-- Three bonds of one sector, all with non-null Duration and Yield. -/
def dfThree : List Bond :=
  [bondAt "B1" 1 (3/100), bondAt "B2" 2 (4/100), bondAt "B3" 3 (5/100)]

/-- Five bonds lying exactly on the quadratic y = x/100: the quadratic
fit is exact and the residuals are identically zero. -/
def dfExactQuad : List Bond :=
  [bondAt "B1" 1 (1/100), bondAt "B2" 2 (2/100), bondAt "B3" 3 (3/100),
   bondAt "B4" 4 (4/100), bondAt "B5" 5 (5/100)]

/-- Five bonds whose yields are far from the constant 1/2 the
`nsConstKernel` optimizer returns, with nonconstant yields (so the
total sum of squares is positive but much smaller than the residual
sum of squares of the returned curve). -/
def dfNsBad : List Bond :=
  [bondAt "B1" 1 (1/100), bondAt "B2" 2 (1/100), bondAt "B3" 3 (1/100),
   bondAt "B4" 4 (1/100), bondAt "B5" 5 (1/20)]

/-- The three-bond portfolio of the weighted-average identity:
durations [2,4,6], notionals [10e6,20e6,10e6], yields [3%,5%,7%]. -/
def dfWeighted : List Bond :=
  [{ sampleBond with ticker := "W1", duration := some 2, yld := some (3/100), nominal := 10000000 },
   { sampleBond with ticker := "W2", duration := some 4, yld := some (5/100), nominal := 20000000 },
   { sampleBond with ticker := "W3", duration := some 6, yld := some (7/100), nominal := 10000000 }]

/-- A directly constructed fitted state with one scored rich bond and
one NaN-scored bond. -/
def fittedStateW : AnalyzerState :=
  { df := [{ sampleBond with ticker := "S1", zScore := some (-2), netCarry := some (-1/100) },
           { sampleBond with ticker := "S2", zScore := none }]
    modelType := "quadratic"
    regressionResults := []
    nsResults := []
    isFitted := true }

/-- Row with an explicit sector. -/
def bondIn (sec tick : String) (dur yl : ℚ) : Bond :=
  { sampleBond with sector := sec, ticker := tick, duration := some dur, yld := some yl }

/-- Quadratic-exact sector "A" of five bonds next to a two-bond
sector "R" below the sample threshold. -/
def dfMixed : List Bond :=
  dfExactQuad ++ [bondIn "R" "R1" 1 (2/100), bondIn "R" "R2" 2 (3/100)]

/-- One zero-duration row (pre-enrichment). -/
def dfZeroDur : List Bond :=
  [{ sampleBond with ticker := "Z1", duration := some 0, yld := some (3/100) }]

/-- A one-cell heap owned by the caller. -/
def heapW : PandasHeap := ⟨[[sampleBond]]⟩

/-- A post-construction call sequence touching every operation kind. -/
def opsW : List AnalyzerOp :=
  [.fitCurves 5 none, .sell (-3/2) none true, .bleeding true, .metrics, .summary]

/-- Sum of squares of a quadratic's values over the sample durations
(the gap between two candidate quadratics in the least-squares
expansion). -/
def ssDiff (pts : List (ℚ × ℚ)) (da db dc : ℚ) : ℚ :=
  sumBy (fun p => (da * p.1 ^ 2 + db * p.1 + dc) ^ 2) pts

/-- Residual standard deviation stored for a sector by the active model
family's result dictionary, if the sector is fitted. -/
def activeResidualStd (s : AnalyzerState) (sec : String) : Option ℚ :=
  if s.modelType == "nelson_siegel" then
    (s.nsResults.lookup sec).map NelsonSiegelResult.residual_std
  else
    (s.regressionResults.lookup sec).map RegressionResult.residual_std

/-- The result `fit_sector_curves` records for one sector in quadratic
mode: nothing when the sector's row count is below `min_samples`,
otherwise whatever `_fit_single_curve` returns. -/
def quadEntry (k : NumKernel) (s : AnalyzerState) (m : ℕ) (sec : String) :
    Option RegressionResult :=
  if (s.df.filter (fun bd => bd.sector == sec)).length < m then none
  else fit_single_curve k sec (s.df.filter (fun bd => bd.sector == sec))

/-- The result `fit_sector_curves` records for one sector in
Nelson-Siegel mode. -/
def nsEntry (k : NumKernel) (s : AnalyzerState) (m : ℕ) (sec : String) :
    Option NelsonSiegelResult :=
  if (s.df.filter (fun bd => bd.sector == sec)).length < m then none
  else fit_nelson_siegel_curve k sec (s.df.filter (fun bd => bd.sector == sec))

/-! ### Helper lemmas: sorting -/

theorem perm_sortAscBy (key : Bond → WithTop ℚ) (l : List Bond) :
    (sortAscBy key l).Perm l :=
  List.perm_insertionSort _ l

theorem sorted_sortAscBy (key : Bond → WithTop ℚ) (l : List Bond) :
    (sortAscBy key l).Sorted (fun x y => key x ≤ key y) := by
  haveI : IsTotal Bond (fun x y => key x ≤ key y) := ⟨fun a b => le_total (key a) (key b)⟩
  haveI : IsTrans Bond (fun x y => key x ≤ key y) := ⟨fun a b c h1 h2 => le_trans h1 h2⟩
  exact List.sorted_insertionSort _ l

theorem perm_sortDescBy (key : Bond → WithTop ℚ) (l : List Bond) :
    (sortDescBy key l).Perm l :=
  List.perm_insertionSort _ l

theorem sorted_sortDescBy (key : Bond → WithTop ℚ) (l : List Bond) :
    (sortDescBy key l).Sorted (fun x y => key y ≤ key x) := by
  haveI : IsTotal Bond (fun x y => key y ≤ key x) := ⟨fun a b => le_total (key b) (key a)⟩
  haveI : IsTrans Bond (fun x y => key y ≤ key x) := ⟨fun a b c h1 h2 => le_trans h2 h1⟩
  exact List.sorted_insertionSort _ l

/-- C3: before any `fit_sector_curves` call has completed,
`get_sell_candidates` and `get_buy_candidates` raise the not-fitted
`ValueError`, while `get_bleeding_assets` never requires a fit: for
every analyzer state, fitted or not, it returns (without raising) the
bonds with negative Net Carry — optionally tradeable only — sorted
ascending by Net Carry, and its output does not depend on the fitted
flag. -/
theorem bleeding_independent_of_fit (s : AnalyzerState) (t : ℚ) (mnc : Option ℚ)
    (excl : Bool) (minLiq : ℚ) :
    (s.isFitted = false →
      get_sell_candidates t mnc excl s = .error "Must call fit_sector_curves() first" ∧
      get_buy_candidates t mnc minLiq s = .error "Must call fit_sector_curves() first") ∧
    (get_bleeding_assets excl s).Perm (s.df.filter (bleedMask excl)) ∧
    (get_bleeding_assets excl s).Sorted (fun x y => ncKey x ≤ ncKey y) ∧
    (∀ b : Bool, get_bleeding_assets excl { s with isFitted := b } = get_bleeding_assets excl s) := by
  refine ⟨fun h => ?_, perm_sortAscBy _ _, sorted_sortAscBy _ _, fun b => rfl⟩
  constructor
  · simp [get_sell_candidates, h]
  · simp [get_buy_candidates, h]

/-- Witness for `bleeding_independent_of_fit` at a freshly constructed
(unfitted) analyzer over `dfThree`. -/
theorem bleeding_independent_of_fit_witness :
    (PortfolioAnalyzer.init dfThree "quadratic").isFitted = false ∧
    (get_sell_candidates (-3/2) none true (PortfolioAnalyzer.init dfThree "quadratic")
        = .error "Must call fit_sector_curves() first" ∧
      get_buy_candidates (3/2) none 3 (PortfolioAnalyzer.init dfThree "quadratic")
        = .error "Must call fit_sector_curves() first") :=
  ⟨rfl, (bleeding_independent_of_fit (PortfolioAnalyzer.init dfThree "quadratic")
      (-3/2) none true 3).1 rfl⟩

/-- A row passing the sell mask has a defined Z-score strictly below
the threshold. -/
theorem sellMask_zscore {t : ℚ} {mnc : Option ℚ} {excl : Bool} {bd : Bond}
    (h : sellMask t mnc excl bd = true) :
    bd.zScore.isSome ∧ ∀ z, bd.zScore = some z → z < t := by
  have h1 : optLt bd.zScore t = true := by
    simp only [sellMask, Bool.and_eq_true] at h
    exact h.1.1
  cases hz : bd.zScore with
  | none => rw [hz] at h1; cases h1
  | some z =>
    rw [hz] at h1
    rw [show optLt (some z) t = decide (z < t) from rfl] at h1
    exact ⟨rfl, fun z' hz' => by
      injection hz' with hzz; subst hzz; exact of_decide_eq_true h1⟩

/-- C2: on a fitted analyzer, `get_sell_candidates` returns exactly the
rows whose Z-score is strictly below the threshold (with the optional
Net-Carry and tradeable filters), sorted ascending by Z-score; the
result is empty iff no row passes the filters, and rows with NaN
Z-score are never included. -/
theorem sell_candidates_spec (s : AnalyzerState) (h : s.isFitted = true) (t : ℚ)
    (mnc : Option ℚ) (excl : Bool) :
    ∃ l, get_sell_candidates t mnc excl s = .ok l ∧
      l.Perm (s.df.filter (sellMask t mnc excl)) ∧
      l.Sorted (fun x y => zKey x ≤ zKey y) ∧
      ((l = []) ↔ ∀ bd ∈ s.df, sellMask t mnc excl bd = false) ∧
      (∀ bd ∈ l, bd.zScore.isSome) ∧
      (∀ bd ∈ l, ∀ z, bd.zScore = some z → z < t) := by
  refine ⟨sortAscBy zKey (s.df.filter (sellMask t mnc excl)), ?_, perm_sortAscBy _ _,
    sorted_sortAscBy _ _, ?_, ?_, ?_⟩
  · simp [get_sell_candidates, h]
  · constructor
    · intro hnil
      have : s.df.filter (sellMask t mnc excl) = [] :=
        List.Perm.eq_nil ((perm_sortAscBy zKey _).symm.trans (by rw [hnil]))
      intro bd hbd
      by_contra hmask
      have : bd ∈ s.df.filter (sellMask t mnc excl) :=
        List.mem_filter.2 ⟨hbd, by revert hmask; cases sellMask t mnc excl bd <;> simp⟩
      simp [‹s.df.filter (sellMask t mnc excl) = []›] at this
    · intro hall
      have : s.df.filter (sellMask t mnc excl) = [] := by
        apply List.filter_eq_nil_iff.2
        intro bd hbd
        rw [hall bd hbd]
        exact fun hh => by cases hh
      exact List.Perm.eq_nil (by rw [← this]; exact perm_sortAscBy _ _)
  · intro bd hbd
    have := List.mem_filter.1 ((perm_sortAscBy zKey _).subset hbd)
    exact (sellMask_zscore this.2).1
  · intro bd hbd
    have := List.mem_filter.1 ((perm_sortAscBy zKey _).subset hbd)
    exact (sellMask_zscore this.2).2

/-- Witness for `sell_candidates_spec` on a concrete fitted state. -/
theorem sell_candidates_spec_witness :
    fittedStateW.isFitted = true ∧
    ∃ l, get_sell_candidates (-3/2) none true fittedStateW = .ok l ∧
      l.Perm (fittedStateW.df.filter (sellMask (-3/2) none true)) ∧
      l.Sorted (fun x y => zKey x ≤ zKey y) ∧
      ((l = []) ↔ ∀ bd ∈ fittedStateW.df, sellMask (-3/2) none true bd = false) ∧
      (∀ bd ∈ l, bd.zScore.isSome) ∧
      (∀ bd ∈ l, ∀ z, bd.zScore = some z → z < (-3/2)) :=
  ⟨rfl, sell_candidates_spec fittedStateW rfl (-3/2) none true⟩

/-- C5: a zero-duration row is enriched with an undefined (NaN) Carry
Efficiency — the division by Duration is guarded and never raises —
while its Net Carry stays the defined value Yield − FTP. -/
theorem zero_duration_carry_guard (df : List Bond) (bd : Bond)
    (h : bd ∈ enrich_data df) (h0 : bd.duration = some 0) :
    bd.carryEff = none ∧ ∀ y, bd.yld = some y → bd.netCarry = some (y - bd.ftp) := by
  rcases List.mem_map.1 h with ⟨b0, _, rfl⟩
  have hd : b0.duration = some 0 := h0
  constructor
  · show (enrich_bond b0).carryEff = none
    simp [enrich_bond, hd]
  · intro y hy
    have hyy : b0.yld = some y := hy
    show (enrich_bond b0).netCarry = some (y - (enrich_bond b0).ftp)
    simp [enrich_bond, hyy]

/-- Witness for `zero_duration_carry_guard` on the concrete
zero-duration frame. -/
theorem zero_duration_carry_guard_witness :
    (enrich_bond (dfZeroDur.headD sampleBond)) ∈ enrich_data dfZeroDur ∧
    (enrich_bond (dfZeroDur.headD sampleBond)).duration = some 0 ∧
    ((enrich_bond (dfZeroDur.headD sampleBond)).carryEff = none ∧
      ∀ y, (enrich_bond (dfZeroDur.headD sampleBond)).yld = some y →
        (enrich_bond (dfZeroDur.headD sampleBond)).netCarry = some (y - (enrich_bond (dfZeroDur.headD sampleBond)).ftp)) :=
  ⟨List.mem_singleton.2 rfl, rfl,
    zero_duration_carry_guard dfZeroDur (enrich_bond (dfZeroDur.headD sampleBond))
      (List.mem_singleton.2 rfl) rfl⟩

/-- C7: every notional-weighted portfolio average is
`Σ(mᵢ·notionalᵢ)/Σ(notionalᵢ)` (NaN metric cells skipped by the pandas
sum), and is 0 when the total notional is 0; on the three-bond
portfolio with durations [2,4,6], notionals [10e6,20e6,10e6] and yields
[3%,5%,7%] the weighted yield is 0.05 to within 1e-9 (indeed exactly). -/
theorem weighted_average_spec (df : List Bond) :
    (sumBy Bond.nominal df = 0 →
      (calculate_portfolio_metrics df).weighted_duration = 0 ∧
      (calculate_portfolio_metrics df).weighted_yield = 0 ∧
      (calculate_portfolio_metrics df).weighted_net_carry = 0) ∧
    (0 < sumBy Bond.nominal df →
      (calculate_portfolio_metrics df).weighted_duration
          = (df.filterMap (fun bd => bd.duration.map (fun v => v * bd.nominal))).sum
              / sumBy Bond.nominal df ∧
      (calculate_portfolio_metrics df).weighted_yield
          = (df.filterMap (fun bd => bd.yld.map (fun v => v * bd.nominal))).sum
              / sumBy Bond.nominal df ∧
      (calculate_portfolio_metrics df).weighted_net_carry
          = (df.filterMap (fun bd => bd.netCarry.map (fun v => v * bd.nominal))).sum
              / sumBy Bond.nominal df) ∧
    |(calculate_portfolio_metrics dfWeighted).weighted_yield - 5/100| ≤ 1/1000000000 := by
  refine ⟨fun h0 => ?_, fun hpos => ?_, ?_⟩
  · simp [calculate_portfolio_metrics, weightedAvg, h0]
  · simp [calculate_portfolio_metrics, weightedAvg, hpos]
  · have hval : (calculate_portfolio_metrics dfWeighted).weighted_yield = 1/20 := by
      norm_num [calculate_portfolio_metrics, weightedAvg, dfWeighted, sampleBond, sumBy,
        List.filterMap_cons, List.filterMap_nil, Option.map_some, List.sum_cons, List.sum_nil]
    rw [hval]
    norm_num

/-- Witness for `weighted_average_spec` on the three-bond portfolio. -/
theorem weighted_average_spec_witness :
    0 < sumBy Bond.nominal dfWeighted ∧
    (calculate_portfolio_metrics dfWeighted).weighted_yield
      = (dfWeighted.filterMap (fun bd => bd.yld.map (fun v => v * bd.nominal))).sum
          / sumBy Bond.nominal dfWeighted := by
  have hpos : 0 < sumBy Bond.nominal dfWeighted := by
    norm_num [sumBy, dfWeighted, sampleBond]
  exact ⟨hpos, ((weighted_average_spec dfWeighted).2.1 hpos).2.1⟩

/-! ### Helper lemmas: the per-sector fitting fold -/

theorem foldl_fitStep_quad (k : NumKernel) (s : AnalyzerState) (m : ℕ)
    (hmt : (s.modelType == "nelson_siegel") = false) :
    ∀ (secs : List String) (r : List (String × RegressionResult))
      (n : List (String × NelsonSiegelResult)),
      secs.foldl (fitStep k s m) (r, n)
        = (r ++ secs.filterMap (fun sec => (quadEntry k s m sec).map (fun rr => (sec, rr))), n) := by
  intro secs
  induction secs with
  | nil => intro r n; simp
  | cons a t ih =>
    intro r n
    rw [List.foldl_cons, List.filterMap_cons]
    by_cases hlen : (s.df.filter (fun bd => bd.sector == a)).length < m
    · have hstep : fitStep k s m (r, n) a = (r, n) := by
        simp [fitStep, hlen]
      have hent : quadEntry k s m a = none := by simp [quadEntry, hlen]
      rw [hstep, hent, ih]
      simp
    · cases hfit : fit_single_curve k a (s.df.filter (fun bd => bd.sector == a)) with
      | none =>
        have hstep : fitStep k s m (r, n) a = (r, n) := by
          simp [fitStep, hlen, hmt, hfit]
        have hent : quadEntry k s m a = none := by simp [quadEntry, hlen, hfit]
        rw [hstep, hent, ih]
        simp
      | some rr =>
        have hstep : fitStep k s m (r, n) a = (r ++ [(a, rr)], n) := by
          simp [fitStep, hlen, hmt, hfit]
        have hent : quadEntry k s m a = some rr := by simp [quadEntry, hlen, hfit]
        rw [hstep, hent, ih]
        simp

theorem foldl_fitStep_ns (k : NumKernel) (s : AnalyzerState) (m : ℕ)
    (hmt : (s.modelType == "nelson_siegel") = true) :
    ∀ (secs : List String) (r : List (String × RegressionResult))
      (n : List (String × NelsonSiegelResult)),
      secs.foldl (fitStep k s m) (r, n)
        = (r, n ++ secs.filterMap (fun sec => (nsEntry k s m sec).map (fun rr => (sec, rr)))) := by
  intro secs
  induction secs with
  | nil => intro r n; simp
  | cons a t ih =>
    intro r n
    rw [List.foldl_cons, List.filterMap_cons]
    by_cases hlen : (s.df.filter (fun bd => bd.sector == a)).length < m
    · have hstep : fitStep k s m (r, n) a = (r, n) := by
        simp [fitStep, hlen]
      have hent : nsEntry k s m a = none := by simp [nsEntry, hlen]
      rw [hstep, hent, ih]
      simp
    · cases hfit : fit_nelson_siegel_curve k a (s.df.filter (fun bd => bd.sector == a)) with
      | none =>
        have hstep : fitStep k s m (r, n) a = (r, n) := by
          simp [fitStep, hlen, hmt, hfit]
        have hent : nsEntry k s m a = none := by simp [nsEntry, hlen, hfit]
        rw [hstep, hent, ih]
        simp
      | some rr =>
        have hstep : fitStep k s m (r, n) a = (r, n ++ [(a, rr)]) := by
          simp [fitStep, hlen, hmt, hfit]
        have hent : nsEntry k s m a = some rr := by simp [nsEntry, hlen, hfit]
        rw [hstep, hent, ih]
        simp

/-- Looking a key up in a keyed `filterMap` over distinct keys. -/
theorem lookup_keyed {β : Type} (f : String → Option β) :
    ∀ (secs : List String), secs.Nodup → ∀ key : String,
      (secs.filterMap (fun sec => (f sec).map (fun r => (sec, r)))).lookup key
        = if key ∈ secs then f key else none := by
  intro secs
  induction secs with
  | nil => intro _ key; simp
  | cons a t ih =>
    intro hnd key
    rcases List.nodup_cons.1 hnd with ⟨hna, hndt⟩
    rw [List.filterMap_cons]
    cases hfa : f a with
    | none =>
      simp only [Option.map_none']
      rw [ih hndt key]
      by_cases hka : key = a
      · subst hka
        rw [if_neg hna, if_pos (List.mem_cons_self _ _), hfa]
      · by_cases hkt : key ∈ t
        · rw [if_pos hkt, if_pos (List.mem_cons_of_mem _ hkt)]
        · rw [if_neg hkt, if_neg (by simp [hka, hkt])]
    | some ra =>
      simp only [Option.map_some']
      by_cases hka : key = a
      · subst hka
        have hlk : List.lookup key
            ((key, ra) :: t.filterMap fun sec => (f sec).map fun r => (sec, r)) = some ra := by
          simp [List.lookup]
        rw [hlk, if_pos (List.mem_cons_self _ _), hfa]
      · have hstep : List.lookup key
            ((a, ra) :: t.filterMap fun sec => (f sec).map fun r => (sec, r))
            = List.lookup key (t.filterMap fun sec => (f sec).map fun r => (sec, r)) := by
          simp [List.lookup, beq_eq_false_iff_ne.2 hka]
        rw [hstep, ih hndt key]
        by_cases hkt : key ∈ t
        · rw [if_pos hkt, if_pos (List.mem_cons_of_mem _ hkt)]
        · rw [if_neg hkt, if_neg (by simp [hka, hkt])]

/-! ### Helper lemmas: `uniqueSectors` -/

theorem mem_uniqueSectors_fold :
    ∀ (df : List Bond) (acc : List String) (x : String),
      (x ∈ df.foldl (fun acc bd => if bd.sector ∈ acc then acc else acc ++ [bd.sector]) acc)
        ↔ x ∈ acc ∨ ∃ bd ∈ df, bd.sector = x := by
  intro df
  induction df with
  | nil => intro acc x; simp
  | cons b t ih =>
    intro acc x
    rw [List.foldl_cons]
    by_cases hb : b.sector ∈ acc
    · rw [if_pos hb, ih]
      constructor
      · rintro (h | ⟨bd, hbd, hx⟩)
        · exact Or.inl h
        · exact Or.inr ⟨bd, List.mem_cons_of_mem _ hbd, hx⟩
      · rintro (h | ⟨bd, hbd, hx⟩)
        · exact Or.inl h
        · rcases List.mem_cons.1 hbd with hbb | hbt
          · subst hbb; subst hx; exact Or.inl hb
          · exact Or.inr ⟨bd, hbt, hx⟩
    · rw [if_neg hb, ih]
      constructor
      · rintro (h | ⟨bd, hbd, hx⟩)
        · rcases List.mem_append.1 h with h' | h'
          · exact Or.inl h'
          · have hx : x = b.sector := by simpa using h'
            exact Or.inr ⟨b, List.mem_cons_self _ _, hx.symm⟩
        · exact Or.inr ⟨bd, List.mem_cons_of_mem _ hbd, hx⟩
      · rintro (h | ⟨bd, hbd, hx⟩)
        · exact Or.inl (List.mem_append.2 (Or.inl h))
        · rcases List.mem_cons.1 hbd with hbb | hbt
          · subst hbb
            exact Or.inl (List.mem_append.2 (Or.inr (by simp [hx])))
          · exact Or.inr ⟨bd, hbt, hx⟩

theorem nodup_uniqueSectors_fold :
    ∀ (df : List Bond) (acc : List String), acc.Nodup →
      (df.foldl (fun acc bd => if bd.sector ∈ acc then acc else acc ++ [bd.sector]) acc).Nodup := by
  intro df
  induction df with
  | nil => intro acc h; exact h
  | cons b t ih =>
    intro acc hacc
    rw [List.foldl_cons]
    by_cases hb : b.sector ∈ acc
    · rw [if_pos hb]; exact ih acc hacc
    · rw [if_neg hb]
      refine ih _ ?_
      simp [List.nodup_append, hacc, hb]

theorem mem_uniqueSectors (df : List Bond) (x : String) :
    x ∈ uniqueSectors df ↔ ∃ bd ∈ df, bd.sector = x := by
  rw [uniqueSectors, mem_uniqueSectors_fold]
  simp

theorem uniqueSectors_nodup (df : List Bond) : (uniqueSectors df).Nodup :=
  nodup_uniqueSectors_fold df [] List.nodup_nil

theorem filter_sector_eq_nil {df : List Bond} {x : String} (h : x ∉ uniqueSectors df) :
    df.filter (fun bd => bd.sector == x) = [] := by
  rw [List.filter_eq_nil_iff]
  intro bd hbd hx
  exact h ((mem_uniqueSectors df x).2 ⟨bd, hbd, by simpa using hx⟩)

/-- Quadratic-mode result dictionary after a fit, as a lookup. -/
theorem fit_regs_lookup (k : NumKernel) (m : ℕ) (s : AnalyzerState)
    (hq : s.modelType ≠ "nelson_siegel") (sector : String) :
    (fit_sector_curves k m none s).regressionResults.lookup sector
      = if sector ∈ uniqueSectors s.df then quadEntry k s m sector else none := by
  have hmt : (s.modelType == "nelson_siegel") = false := beq_eq_false_iff_ne.2 hq
  show ((uniqueSectors s.df).foldl (fitStep k s m) ([], [])).1.lookup sector = _
  rw [foldl_fitStep_quad k s m hmt]
  simp only [List.nil_append]
  exact lookup_keyed (quadEntry k s m) (uniqueSectors s.df) (uniqueSectors_nodup _) sector

/-- Nelson-Siegel-mode result dictionary after a fit, as a lookup. -/
theorem fit_ns_lookup (k : NumKernel) (m : ℕ) (s : AnalyzerState)
    (hns : s.modelType = "nelson_siegel") (sector : String) :
    (fit_sector_curves k m none s).nsResults.lookup sector
      = if sector ∈ uniqueSectors s.df then nsEntry k s m sector else none := by
  have hmt : (s.modelType == "nelson_siegel") = true := by
    rw [beq_iff_eq]; exact hns
  show ((uniqueSectors s.df).foldl (fitStep k s m) ([], [])).2.lookup sector = _
  rw [foldl_fitStep_ns k s m hmt]
  simp only [List.nil_append]
  exact lookup_keyed (nsEntry k s m) (uniqueSectors s.df) (uniqueSectors_nodup _) sector

/-- A row passing the buy mask has a defined Z-score. -/
theorem buyMask_zscore {t : ℚ} {mnc : Option ℚ} {ml : ℚ} {bd : Bond}
    (h : buyMask t mnc ml bd = true) : bd.zScore.isSome := by
  have h1 : optGt bd.zScore t = true := by
    simp only [buyMask, Bool.and_eq_true] at h
    exact h.1.1
  cases hz : bd.zScore with
  | none => rw [hz] at h1; cases h1
  | some z => rfl


/-! ### Helper lemmas: row scoring -/

theorem scoreQuad_decomp (regs : List (String × RegressionResult)) (bd : Bond) :
    ∃ my res z, scoreQuad regs bd = { bd with modelYield := my, residual := res, zScore := z } := by
  unfold scoreQuad
  cases regs.lookup bd.sector with
  | none => exact ⟨none, none, none, rfl⟩
  | some r => exact ⟨_, _, _, rfl⟩

theorem scoreNS_decomp (k : NumKernel) (nss : List (String × NelsonSiegelResult)) (bd : Bond) :
    ∃ my res z, scoreNS k nss bd = { bd with modelYield := my, residual := res, zScore := z } := by
  unfold scoreNS
  cases nss.lookup bd.sector with
  | none => exact ⟨none, none, none, rfl⟩
  | some r => exact ⟨_, _, _, rfl⟩

theorem scoreQuad_sector (regs : List (String × RegressionResult)) (bd : Bond) :
    (scoreQuad regs bd).sector = bd.sector := by
  rcases scoreQuad_decomp regs bd with ⟨my, res, z, h⟩
  rw [h]

theorem scoreNS_sector (k : NumKernel) (nss : List (String × NelsonSiegelResult)) (bd : Bond) :
    (scoreNS k nss bd).sector = bd.sector := by
  rcases scoreNS_decomp k nss bd with ⟨my, res, z, h⟩
  rw [h]

/-- In quadratic mode the fitted frame is the row-wise `scoreQuad` map. -/
theorem fit_df_quad (k : NumKernel) (m : ℕ) (sa : Option (List String)) (s : AnalyzerState)
    (hmt : (s.modelType == "nelson_siegel") = false) :
    (fit_sector_curves k m sa s).df
      = s.df.map (scoreQuad (fit_sector_curves k m sa s).regressionResults) := by
  show calculate_z_scores k s.modelType _ _ s.df = _
  unfold calculate_z_scores
  simp only [hmt, Bool.false_eq_true, if_false]
  rfl

/-- In Nelson-Siegel mode the fitted frame is the row-wise `scoreNS` map. -/
theorem fit_df_ns (k : NumKernel) (m : ℕ) (sa : Option (List String)) (s : AnalyzerState)
    (hmt : (s.modelType == "nelson_siegel") = true) :
    (fit_sector_curves k m sa s).df
      = s.df.map (scoreNS k (fit_sector_curves k m sa s).nsResults) := by
  show calculate_z_scores k s.modelType _ _ s.df = _
  unfold calculate_z_scores
  simp only [hmt, if_true]
  rfl

/-- C1 (amended): in quadratic mode, `fit_sector_curves` produces a
fitted curve for a sector iff the sector's total row count is at least
the `min_samples` argument AND its count of rows with non-null Duration
and Yield is at least the module constant `MIN_SAMPLES_FOR_REGRESSION`
(= 5) — the inner `_fit_single_curve` gate uses the constant, not the
argument, so the two thresholds coincide only at the default
`min_samples = 5`; in Nelson-Siegel mode the optimizer must additionally
converge.  Every row whose sector has no fitted curve carries
Z-score = NaN, and no row of `get_sell_candidates` or
`get_buy_candidates` output ever has a NaN Z-score. -/
theorem fitted_curve_iff (k : NumKernel) (m : ℕ) (s : AnalyzerState)
    (hq : s.modelType ≠ "nelson_siegel") (sector : String) :
    (((fit_sector_curves k m none s).regressionResults.lookup sector).isSome
        ↔ m ≤ (s.df.filter (fun bd => bd.sector == sector)).length ∧
          MIN_SAMPLES_FOR_REGRESSION
            ≤ (s.df.filter (fun bd => isClean bd && bd.sector == sector)).length) ∧
    (∀ s2 : AnalyzerState, s2.modelType = "nelson_siegel" →
      (((fit_sector_curves k m none s2).nsResults.lookup sector).isSome
        ↔ m ≤ (s2.df.filter (fun bd => bd.sector == sector)).length ∧
          MIN_SAMPLES_FOR_REGRESSION
            ≤ (s2.df.filter (fun bd => isClean bd && bd.sector == sector)).length ∧
          (k.nsFit (cleanPts (s2.df.filter (fun bd => bd.sector == sector)))).isSome)) ∧
    (∀ bd ∈ (fit_sector_curves k m none s).df,
      (fit_sector_curves k m none s).regressionResults.lookup bd.sector = none →
        bd.zScore = none) ∧
    (∀ t mnc excl l, get_sell_candidates t mnc excl (fit_sector_curves k m none s) = .ok l →
      ∀ bd ∈ l, bd.zScore.isSome) ∧
    (∀ t mnc ml l, get_buy_candidates t mnc ml (fit_sector_curves k m none s) = .ok l →
      ∀ bd ∈ l, bd.zScore.isSome) := by
  have hmt : (s.modelType == "nelson_siegel") = false := beq_eq_false_iff_ne.2 hq
  refine ⟨?_, ?_, ?_, ?_, ?_⟩
  · rw [fit_regs_lookup k m s hq sector]
    by_cases hmem : sector ∈ uniqueSectors s.df
    · rw [if_pos hmem]
      by_cases hlen : (s.df.filter (fun bd => bd.sector == sector)).length < m
      · have he : quadEntry k s m sector = none := by simp [quadEntry, hlen]
        rw [he]
        constructor
        · rintro ⟨⟩
        · rintro ⟨h1, _⟩; omega
      · by_cases hclean :
            (s.df.filter (fun bd => isClean bd && bd.sector == sector)).length
              < MIN_SAMPLES_FOR_REGRESSION
        · have he : quadEntry k s m sector = none := by
            simp [quadEntry, hlen, fit_single_curve, List.filter_filter, hclean]
          rw [he]
          constructor
          · rintro ⟨⟩
          · rintro ⟨_, h2⟩; omega
        · have he : (quadEntry k s m sector).isSome = true := by
            simp [quadEntry, hlen, fit_single_curve, List.filter_filter, hclean]
          rw [he]
          exact ⟨fun _ => ⟨by omega, by omega⟩, fun _ => rfl⟩
    · rw [if_neg hmem]
      have hnil : s.df.filter (fun bd => bd.sector == sector) = [] :=
        filter_sector_eq_nil hmem
      have hnil2 : s.df.filter (fun bd => isClean bd && bd.sector == sector) = [] := by
        rw [List.filter_eq_nil_iff]
        intro bd hbd hx
        rw [Bool.and_eq_true] at hx
        have := List.filter_eq_nil_iff.1 hnil bd hbd
        exact this hx.2
      rw [hnil2]
      constructor
      · rintro ⟨⟩
      · rintro ⟨_, h2⟩
        simp [MIN_SAMPLES_FOR_REGRESSION] at h2
  · intro s2 hns
    rw [fit_ns_lookup k m s2 hns sector]
    by_cases hmem : sector ∈ uniqueSectors s2.df
    · rw [if_pos hmem]
      by_cases hlen : (s2.df.filter (fun bd => bd.sector == sector)).length < m
      · have he : nsEntry k s2 m sector = none := by simp [nsEntry, hlen]
        rw [he]
        constructor
        · rintro ⟨⟩
        · rintro ⟨h1, _⟩; omega
      · by_cases hclean :
            (s2.df.filter (fun bd => isClean bd && bd.sector == sector)).length
              < MIN_SAMPLES_FOR_REGRESSION
        · have he : nsEntry k s2 m sector = none := by
            simp [nsEntry, hlen, fit_nelson_siegel_curve, List.filter_filter, hclean]
          rw [he]
          constructor
          · rintro ⟨⟩
          · rintro ⟨_, h2, _⟩; omega
        · cases hfit : k.nsFit (cleanPts (s2.df.filter (fun bd => bd.sector == sector))) with
          | none =>
            have he : nsEntry k s2 m sector = none := by
              simp [nsEntry, hlen, fit_nelson_siegel_curve, List.filter_filter, hclean, hfit]
            rw [he]
            constructor
            · rintro ⟨⟩
            · rintro ⟨-, -, h3⟩
              exact h3
          | some prm =>
            have he : (nsEntry k s2 m sector).isSome = true := by
              simp [nsEntry, hlen, fit_nelson_siegel_curve, List.filter_filter, hclean, hfit]
            rw [he]
            exact ⟨fun _ => ⟨by omega, by omega, rfl⟩, fun _ => rfl⟩
    · rw [if_neg hmem]
      have hnil : s2.df.filter (fun bd => bd.sector == sector) = [] :=
        filter_sector_eq_nil hmem
      have hnil2 : s2.df.filter (fun bd => isClean bd && bd.sector == sector) = [] := by
        rw [List.filter_eq_nil_iff]
        intro bd hbd hx
        rw [Bool.and_eq_true] at hx
        exact List.filter_eq_nil_iff.1 hnil bd hbd hx.2
      rw [hnil2]
      constructor
      · rintro ⟨⟩
      · rintro ⟨-, h2, -⟩
        simp [MIN_SAMPLES_FOR_REGRESSION] at h2
  · intro bd hbd hlook
    rw [fit_df_quad k m none s hmt] at hbd
    rcases List.mem_map.1 hbd with ⟨b0, _, rfl⟩
    rw [scoreQuad_sector] at hlook
    unfold scoreQuad
    rw [hlook]
    rfl
  · intro t mnc excl l hok bd hbd
    have hfit : (fit_sector_curves k m none s).isFitted = true := rfl
    rw [get_sell_candidates, hfit] at hok
    simp only [Bool.not_true, Bool.false_eq_true, if_false] at hok
    cases hok
    have hmem := List.mem_filter.1 ((perm_sortAscBy zKey _).subset hbd)
    exact (sellMask_zscore hmem.2).1
  · intro t mnc ml l hok bd hbd
    have hfit : (fit_sector_curves k m none s).isFitted = true := rfl
    rw [get_buy_candidates, hfit] at hok
    simp only [Bool.not_true, Bool.false_eq_true, if_false] at hok
    cases hok
    have hmem := List.mem_filter.1 ((perm_sortDescBy zKey _).subset hbd)
    exact buyMask_zscore hmem.2

/-- Counterexample to C1 as stated: with `min_samples = 3`, sector "A"
of `dfThree` has 3 rows with non-null Duration and Yield — at least
`min_samples` of them — yet `fit_sector_curves` produces no curve for
it, because `_fit_single_curve` applies the module constant
`MIN_SAMPLES_FOR_REGRESSION = 5` instead of the caller's argument. -/
theorem fitted_curve_iff_counterexample :
    3 ≤ ((PortfolioAnalyzer.init dfThree "quadratic").df.filter
        (fun bd => isClean bd && bd.sector == "A")).length ∧
    (fit_sector_curves quadKernel 3 none
        (PortfolioAnalyzer.init dfThree "quadratic")).regressionResults.lookup "A" = none := by
  constructor
  · simp [PortfolioAnalyzer.init, dfThree, bondAt, sampleBond, isClean]
  · rw [fit_regs_lookup quadKernel 3 (PortfolioAnalyzer.init dfThree "quadratic")
      (by decide) "A"]
    simp [uniqueSectors, quadEntry, fit_single_curve, PortfolioAnalyzer.init, dfThree,
      bondAt, sampleBond, isClean, MIN_SAMPLES_FOR_REGRESSION]

/-- Witness for the amended C1 theorem at the concrete mixed frame. -/
theorem fitted_curve_iff_witness :
    (PortfolioAnalyzer.init dfMixed "quadratic").modelType ≠ "nelson_siegel" ∧
    (((fit_sector_curves quadKernel 5 none
          (PortfolioAnalyzer.init dfMixed "quadratic")).regressionResults.lookup "A").isSome
      ↔ 5 ≤ ((PortfolioAnalyzer.init dfMixed "quadratic").df.filter
              (fun bd => bd.sector == "A")).length ∧
        MIN_SAMPLES_FOR_REGRESSION
          ≤ ((PortfolioAnalyzer.init dfMixed "quadratic").df.filter
              (fun bd => isClean bd && bd.sector == "A")).length) :=
  ⟨by decide,
    (fitted_curve_iff quadKernel 5 (PortfolioAnalyzer.init dfMixed "quadratic")
        (by decide) "A").1⟩

/-- C4: after a fit, every row whose sector's stored residual standard
deviation is 0 has an undefined (NaN) Z-score — never ±∞ — because the
division by `residual_std` is guarded and performed only when
`residual_std > 0`. -/
theorem zero_residual_std_z_undefined (k : NumKernel) (m : ℕ) (s : AnalyzerState) (bd : Bond)
    (hbd : bd ∈ (fit_sector_curves k m none s).df)
    (h0 : activeResidualStd (fit_sector_curves k m none s) bd.sector = some 0) :
    bd.zScore = none := by
  cases hmt : (s.modelType == "nelson_siegel") with
  | false =>
    rw [fit_df_quad k m none s hmt] at hbd
    rcases List.mem_map.1 hbd with ⟨b0, _, rfl⟩
    rw [scoreQuad_sector] at h0
    unfold activeResidualStd at h0
    have hmt' : ((fit_sector_curves k m none s).modelType == "nelson_siegel") = false := hmt
    rw [hmt'] at h0
    simp only [Bool.false_eq_true, if_false] at h0
    cases hl : (fit_sector_curves k m none s).regressionResults.lookup b0.sector with
    | none => rw [hl] at h0; cases h0
    | some r =>
      rw [hl] at h0
      have hr : r.residual_std = 0 := by
        simpa using h0
      unfold scoreQuad
      rw [hl]
      simp [hr, scoreWith]
  | true =>
    rw [fit_df_ns k m none s hmt] at hbd
    rcases List.mem_map.1 hbd with ⟨b0, _, rfl⟩
    rw [scoreNS_sector] at h0
    unfold activeResidualStd at h0
    have hmt' : ((fit_sector_curves k m none s).modelType == "nelson_siegel") = true := hmt
    rw [hmt'] at h0
    simp only [if_true] at h0
    cases hl : (fit_sector_curves k m none s).nsResults.lookup b0.sector with
    | none => rw [hl] at h0; cases h0
    | some r =>
      rw [hl] at h0
      have hr : r.residual_std = 0 := by
        simpa using h0
      unfold scoreNS
      rw [hl]
      simp [hr, scoreWith]

/-- Witness for `zero_residual_std_z_undefined`: the quadratic-exact
sector of `dfExactQuad` fits with all-zero residuals, so its stored
residual standard deviation is exactly 0, and its rows come out with
NaN Z-scores. -/
theorem zero_residual_std_z_undefined_witness :
    ∃ bd, bd ∈ (fit_sector_curves zeroStdKernel 5 none
        (PortfolioAnalyzer.init dfExactQuad "quadratic")).df ∧
      activeResidualStd (fit_sector_curves zeroStdKernel 5 none
        (PortfolioAnalyzer.init dfExactQuad "quadratic")) bd.sector = some 0 ∧
      bd.zScore = none := by
  have hmt : ((PortfolioAnalyzer.init dfExactQuad "quadratic").modelType
      == "nelson_siegel") = false := by decide
  have hbd : scoreQuad
      (fit_sector_curves zeroStdKernel 5 none
        (PortfolioAnalyzer.init dfExactQuad "quadratic")).regressionResults
      (bondAt "B1" 1 (1/100))
      ∈ (fit_sector_curves zeroStdKernel 5 none
        (PortfolioAnalyzer.init dfExactQuad "quadratic")).df := by
    rw [fit_df_quad _ _ _ _ hmt]
    exact List.mem_map_of_mem _ (by simp [PortfolioAnalyzer.init, dfExactQuad])
  have h0 : activeResidualStd (fit_sector_curves zeroStdKernel 5 none
      (PortfolioAnalyzer.init dfExactQuad "quadratic"))
      (scoreQuad (fit_sector_curves zeroStdKernel 5 none
        (PortfolioAnalyzer.init dfExactQuad "quadratic")).regressionResults
        (bondAt "B1" 1 (1/100))).sector = some 0 := by
    rw [scoreQuad_sector]
    show activeResidualStd _ "A" = some 0
    unfold activeResidualStd
    rw [show ((fit_sector_curves zeroStdKernel 5 none
        (PortfolioAnalyzer.init dfExactQuad "quadratic")).modelType
        == "nelson_siegel") = false from hmt]
    simp only [Bool.false_eq_true, if_false]
    rw [fit_regs_lookup zeroStdKernel 5 (PortfolioAnalyzer.init dfExactQuad "quadratic")
      (by decide) "A"]
    simp [uniqueSectors, quadEntry, fit_single_curve, PortfolioAnalyzer.init, dfExactQuad,
      bondAt, sampleBond, isClean, MIN_SAMPLES_FOR_REGRESSION, zeroStdKernel]
  exact ⟨_, hbd, h0,
    zero_residual_std_z_undefined zeroStdKernel 5
      (PortfolioAnalyzer.init dfExactQuad "quadratic") _ hbd h0⟩

/-! ### Helper lemmas: ordinary least squares for the quadratic fit -/

theorem sumBy_nonneg {α : Type} (g : α → ℚ) (l : List α) (h : ∀ x, 0 ≤ g x) :
    0 ≤ sumBy g l := by
  induction l with
  | nil => simp [sumBy]
  | cons a t ih =>
    simp only [sumBy, List.map_cons, List.sum_cons]
    have := h a
    simp only [sumBy] at ih
    linarith

theorem ssAbout_nonneg (pts : List (ℚ × ℚ)) (a b c : ℚ) : 0 ≤ ssAbout pts a b c := by
  unfold ssAbout
  exact sumBy_nonneg _ pts (fun p => sq_nonneg _)

theorem ssTot_nonneg (pts : List (ℚ × ℚ)) : 0 ≤ ssTot pts := by
  unfold ssTot
  exact sumBy_nonneg _ pts (fun p => sq_nonneg _)

theorem ssDiff_nonneg (pts : List (ℚ × ℚ)) (da db dc : ℚ) : 0 ≤ ssDiff pts da db dc := by
  unfold ssDiff
  exact sumBy_nonneg _ pts (fun p => sq_nonneg _)

/-- Expansion of the residual sum of squares of one quadratic about
another: the cross terms are the normal-equation defects of the base
quadratic. -/
theorem ss_expand (a b c a' b' c' : ℚ) (pts : List (ℚ × ℚ)) :
    ssAbout pts a' b' c' = ssAbout pts a b c
      + 2 * ((a - a') * (mT 2 pts - (a * mS 4 pts + b * mS 3 pts + c * mS 2 pts))
           + (b - b') * (mT 1 pts - (a * mS 3 pts + b * mS 2 pts + c * mS 1 pts))
           + (c - c') * (mT 0 pts - (a * mS 2 pts + b * mS 1 pts + c * mS 0 pts)))
      + ssDiff pts (a - a') (b - b') (c - c') := by
  induction pts with
  | nil => simp [ssAbout, ssDiff, mS, mT, sumBy]
  | cons p t ih =>
    simp only [ssAbout, ssDiff, mS, mT, sumBy, List.map_cons, List.sum_cons, predQ] at ih ⊢
    linear_combination ih

/-- The Cramer solution of the quadratic fit satisfies its normal
equations. -/
theorem normal_eq_cramer (pts : List (ℚ × ℚ)) (hd : detA pts ≠ 0) :
    (numA pts / detA pts) * mS 4 pts + (numB pts / detA pts) * mS 3 pts
        + (numC pts / detA pts) * mS 2 pts = mT 2 pts ∧
    (numA pts / detA pts) * mS 3 pts + (numB pts / detA pts) * mS 2 pts
        + (numC pts / detA pts) * mS 1 pts = mT 1 pts ∧
    (numA pts / detA pts) * mS 2 pts + (numB pts / detA pts) * mS 1 pts
        + (numC pts / detA pts) * mS 0 pts = mT 0 pts := by
  simp only [numA, numB, numC, detA] at hd ⊢
  generalize mS 0 pts = s0 at hd ⊢
  generalize mS 1 pts = s1 at hd ⊢
  generalize mS 2 pts = s2 at hd ⊢
  generalize mS 3 pts = s3 at hd ⊢
  generalize mS 4 pts = s4 at hd ⊢
  generalize mT 0 pts = t0 at hd ⊢
  generalize mT 1 pts = t1 at hd ⊢
  generalize mT 2 pts = t2 at hd ⊢
  refine ⟨?_, ?_, ?_⟩ <;>
  · field_simp
    ring

/-- The least-squares line satisfies its normal equations. -/
theorem normal_eq_line (pts : List (ℚ × ℚ)) (hd : det2 pts ≠ 0) :
    ((mS 0 pts * mT 1 pts - mS 1 pts * mT 0 pts) / det2 pts) * mS 2 pts
        + ((mS 2 pts * mT 0 pts - mS 1 pts * mT 1 pts) / det2 pts) * mS 1 pts = mT 1 pts ∧
    ((mS 0 pts * mT 1 pts - mS 1 pts * mT 0 pts) / det2 pts) * mS 1 pts
        + ((mS 2 pts * mT 0 pts - mS 1 pts * mT 1 pts) / det2 pts) * mS 0 pts = mT 0 pts := by
  simp only [det2] at hd ⊢
  generalize mS 0 pts = s0 at hd ⊢
  generalize mS 1 pts = s1 at hd ⊢
  generalize mS 2 pts = s2 at hd ⊢
  generalize mT 0 pts = t0 at hd ⊢
  generalize mT 1 pts = t1 at hd ⊢
  constructor <;>
  · field_simp
    ring

/-- The total sum of squares is the residual sum of squares of the
constant-mean quadratic. -/
theorem ssTot_eq_ssAbout_mean (pts : List (ℚ × ℚ)) :
    ssTot pts = ssAbout pts 0 0 (meanY pts) := by
  unfold ssTot ssAbout sumBy
  congr 1
  apply List.map_congr_left
  intro p _
  simp [predQ]

/-- On a nonempty sample the mean kills the zeroth normal-equation
defect of the constant-mean quadratic. -/
theorem meanY_defect (pts : List (ℚ × ℚ)) :
    mS 0 pts ≠ 0 → mT 0 pts - meanY pts * mS 0 pts = 0 := by
  intro h
  rw [meanY, if_neg h]
  field_simp

/-- The embedded `np.polyfit` never fits worse than the constant-mean
model: its residual sum of squares is bounded by the total sum of
squares. -/
theorem polyfit2_ssRes_le_ssTot (pts : List (ℚ × ℚ)) :
    ssAbout pts (polyfit2 pts).1 (polyfit2 pts).2.1 (polyfit2 pts).2.2 ≤ ssTot pts := by
  unfold polyfit2
  split_ifs with hd hd2
  · dsimp only
    rcases normal_eq_cramer pts hd with ⟨h2, h1, h0⟩
    rw [ssTot_eq_ssAbout_mean,
      ss_expand (numA pts / detA pts) (numB pts / detA pts) (numC pts / detA pts)
        0 0 (meanY pts) pts]
    have e2 : mT 2 pts - ((numA pts / detA pts) * mS 4 pts + (numB pts / detA pts) * mS 3 pts
        + (numC pts / detA pts) * mS 2 pts) = 0 := by linear_combination -h2
    have e1 : mT 1 pts - ((numA pts / detA pts) * mS 3 pts + (numB pts / detA pts) * mS 2 pts
        + (numC pts / detA pts) * mS 1 pts) = 0 := by linear_combination -h1
    have e0 : mT 0 pts - ((numA pts / detA pts) * mS 2 pts + (numB pts / detA pts) * mS 1 pts
        + (numC pts / detA pts) * mS 0 pts) = 0 := by linear_combination -h0
    rw [e2, e1, e0]
    have hsd := ssDiff_nonneg pts (numA pts / detA pts - 0) (numB pts / detA pts - 0)
      (numC pts / detA pts - meanY pts)
    linarith
  · dsimp only
    rcases normal_eq_line pts hd2 with ⟨h1, h0⟩
    rw [ssTot_eq_ssAbout_mean,
      ss_expand 0 ((mS 0 pts * mT 1 pts - mS 1 pts * mT 0 pts) / det2 pts)
        ((mS 2 pts * mT 0 pts - mS 1 pts * mT 1 pts) / det2 pts) 0 0 (meanY pts) pts]
    have e1 : mT 1 pts - (0 * mS 3 pts
        + ((mS 0 pts * mT 1 pts - mS 1 pts * mT 0 pts) / det2 pts) * mS 2 pts
        + ((mS 2 pts * mT 0 pts - mS 1 pts * mT 1 pts) / det2 pts) * mS 1 pts) = 0 := by
      linear_combination -h1
    have e0 : mT 0 pts - (0 * mS 2 pts
        + ((mS 0 pts * mT 1 pts - mS 1 pts * mT 0 pts) / det2 pts) * mS 1 pts
        + ((mS 2 pts * mT 0 pts - mS 1 pts * mT 1 pts) / det2 pts) * mS 0 pts) = 0 := by
      linear_combination -h0
    rw [e1, e0]
    have hsd := ssDiff_nonneg pts (0 - 0)
      ((mS 0 pts * mT 1 pts - mS 1 pts * mT 0 pts) / det2 pts - 0)
      ((mS 2 pts * mT 0 pts - mS 1 pts * mT 1 pts) / det2 pts - meanY pts)
    nlinarith [sq_nonneg (0:ℚ)]
  · dsimp only
    rw [ssTot_eq_ssAbout_mean]

/-- Bounds of the guarded R² formula given a nonnegative residual sum
bounded by the total sum. -/
theorem r2_ite_bounds (ssr sst : ℚ) (h0 : 0 ≤ ssr) (hle : ssr ≤ sst) :
    0 ≤ (if sst > 0 then 1 - ssr / sst else 0) ∧
    (if sst > 0 then 1 - ssr / sst else 0) ≤ 1 ∧
    (sst = 0 → (if sst > 0 then 1 - ssr / sst else 0) = 0) := by
  by_cases hst : sst > 0
  · rw [if_pos hst]
    have h1 : ssr / sst ≤ 1 := (div_le_one hst).2 hle
    have h2 : 0 ≤ ssr / sst := div_nonneg h0 (le_of_lt hst)
    exact ⟨by linarith, by linarith, fun hz => absurd hst (by rw [hz]; exact lt_irrefl 0)⟩
  · rw [if_neg hst]
    exact ⟨le_refl 0, by norm_num, fun _ => rfl⟩

/-- Upper bound of the guarded R² formula from a nonnegative residual
sum alone. -/
theorem r2_ite_le_one (ssr sst : ℚ) (h0 : 0 ≤ ssr) :
    (if sst > 0 then 1 - ssr / sst else 0) ≤ 1 ∧
    (sst = 0 → (if sst > 0 then 1 - ssr / sst else 0) = 0) := by
  by_cases hst : sst > 0
  · rw [if_pos hst]
    have h2 : 0 ≤ ssr / sst := div_nonneg h0 (le_of_lt hst)
    exact ⟨by linarith, fun hz => absurd hst (by rw [hz]; exact lt_irrefl 0)⟩
  · rw [if_neg hst]
    exact ⟨by norm_num, fun _ => rfl⟩

/-- Shape of a successful `_fit_single_curve` result. -/
theorem fit_single_curve_some (k : NumKernel) (sec : String) (sdf : List Bond)
    (r : RegressionResult) (h : fit_single_curve k sec sdf = some r) :
    r.r_squared
      = (if ssTot (cleanPts sdf) > 0 then
          1 - ssAbout (cleanPts sdf) (polyfit2 (cleanPts sdf)).1
              (polyfit2 (cleanPts sdf)).2.1 (polyfit2 (cleanPts sdf)).2.2
            / ssTot (cleanPts sdf)
        else 0) ∧
    ∃ l, r.residual_std = k.std l := by
  simp only [fit_single_curve] at h
  by_cases hcl : (sdf.filter isClean).length < MIN_SAMPLES_FOR_REGRESSION
  · rw [if_pos hcl] at h
    cases h
  · rw [if_neg hcl] at h
    have hrec := (Option.some.inj h).symm
    subst hrec
    exact ⟨rfl, _, rfl⟩

/-- Shape of a successful `_fit_nelson_siegel_curve` result. -/
theorem fit_nelson_siegel_curve_some (k : NumKernel) (sec : String) (sdf : List Bond)
    (r : NelsonSiegelResult) (h : fit_nelson_siegel_curve k sec sdf = some r) :
    ∃ prm, k.nsFit (cleanPts sdf) = some prm ∧
      r.r_squared
        = (if ssTot (cleanPts sdf) > 0 then
            1 - sumBy (fun p => (p.2 - k.nsPredict prm p.1) ^ 2) (cleanPts sdf)
              / ssTot (cleanPts sdf)
          else 0) ∧
      ∃ l, r.residual_std = k.std l := by
  simp only [fit_nelson_siegel_curve] at h
  by_cases hcl : (sdf.filter isClean).length < MIN_SAMPLES_FOR_REGRESSION
  · rw [if_pos hcl] at h
    cases h
  · rw [if_neg hcl] at h
    cases hfit : k.nsFit (cleanPts sdf) with
    | none =>
      rw [hfit] at h
      cases h
    | some prm =>
      rw [hfit] at h
      simp only at h
      have hrec := (Option.some.inj h).symm
      subst hrec
      exact ⟨prm, rfl, rfl, _, rfl⟩

/-- C8 (amended): every fitted sector's stored R² is computed as
`1 − SS_res/SS_tot` and is exactly 0 when `SS_tot = 0`; whenever the
`np.std` kernel is nonnegative — as a square root always is — the stored
residual standard deviation is nonnegative.  For the quadratic family
the least-squares property moreover forces R² ∈ [0, 1]; for the
Nelson-Siegel family the code only guarantees R² ≤ 1, since nothing
bounds the bounded optimizer's fit quality from below. -/
theorem r_squared_bounds (k : NumKernel) (hstd : ∀ l, 0 ≤ k.std l) (m : ℕ)
    (s : AnalyzerState) (sector : String) :
    (∀ r, (fit_sector_curves k m none s).regressionResults.lookup sector = some r →
      0 ≤ r.r_squared ∧ r.r_squared ≤ 1 ∧ 0 ≤ r.residual_std ∧
      (ssTot (cleanPts (s.df.filter (fun bd => bd.sector == sector))) = 0 →
        r.r_squared = 0)) ∧
    (∀ r, (fit_sector_curves k m none s).nsResults.lookup sector = some r →
      r.r_squared ≤ 1 ∧ 0 ≤ r.residual_std ∧
      (ssTot (cleanPts (s.df.filter (fun bd => bd.sector == sector))) = 0 →
        r.r_squared = 0)) := by
  constructor
  · intro r hr
    cases hmt : (s.modelType == "nelson_siegel") with
    | true =>
      have hempty : (fit_sector_curves k m none s).regressionResults = [] := by
        show ((uniqueSectors s.df).foldl (fitStep k s m) ([], [])).1 = []
        rw [foldl_fitStep_ns k s m hmt]
      rw [hempty] at hr
      cases hr
    | false =>
      have hq : s.modelType ≠ "nelson_siegel" := beq_eq_false_iff_ne.1 hmt
      rw [fit_regs_lookup k m s hq sector] at hr
      by_cases hmem : sector ∈ uniqueSectors s.df
      · rw [if_pos hmem] at hr
        unfold quadEntry at hr
        by_cases hlen : (s.df.filter (fun bd => bd.sector == sector)).length < m
        · rw [if_pos hlen] at hr
          cases hr
        · rw [if_neg hlen] at hr
          rcases fit_single_curve_some k sector (s.df.filter (fun bd => bd.sector == sector))
            r hr with ⟨hr2, l, hstdeq⟩
          have hb := r2_ite_bounds
            (ssAbout (cleanPts (s.df.filter (fun bd => bd.sector == sector)))
              (polyfit2 (cleanPts (s.df.filter (fun bd => bd.sector == sector)))).1
              (polyfit2 (cleanPts (s.df.filter (fun bd => bd.sector == sector)))).2.1
              (polyfit2 (cleanPts (s.df.filter (fun bd => bd.sector == sector)))).2.2)
            (ssTot (cleanPts (s.df.filter (fun bd => bd.sector == sector))))
            (ssAbout_nonneg _ _ _ _)
            (polyfit2_ssRes_le_ssTot _)
          rw [hr2, hstdeq]
          exact ⟨hb.1, hb.2.1, hstd l, hb.2.2⟩
      · rw [if_neg hmem] at hr
        cases hr
  · intro r hr
    cases hmt : (s.modelType == "nelson_siegel") with
    | false =>
      have hempty : (fit_sector_curves k m none s).nsResults = [] := by
        show ((uniqueSectors s.df).foldl (fitStep k s m) ([], [])).2 = []
        rw [foldl_fitStep_quad k s m hmt]
      rw [hempty] at hr
      cases hr
    | true =>
      have hns : s.modelType = "nelson_siegel" := beq_iff_eq.1 hmt
      rw [fit_ns_lookup k m s hns sector] at hr
      by_cases hmem : sector ∈ uniqueSectors s.df
      · rw [if_pos hmem] at hr
        unfold nsEntry at hr
        by_cases hlen : (s.df.filter (fun bd => bd.sector == sector)).length < m
        · rw [if_pos hlen] at hr
          cases hr
        · rw [if_neg hlen] at hr
          rcases fit_nelson_siegel_curve_some k sector
            (s.df.filter (fun bd => bd.sector == sector)) r hr with ⟨prm, _, hr2, l, hstdeq⟩
          have hb := r2_ite_le_one
            (sumBy (fun p => (p.2 - k.nsPredict prm p.1) ^ 2)
              (cleanPts (s.df.filter (fun bd => bd.sector == sector))))
            (ssTot (cleanPts (s.df.filter (fun bd => bd.sector == sector))))
            (sumBy_nonneg _ _ (fun p => sq_nonneg _))
          rw [hr2, hstdeq]
          exact ⟨hb.1, hstd l, hb.2⟩
      · rw [if_neg hmem] at hr
        cases hr

/-- The concrete `np.std` stand-in is nonnegative, as a square root is. -/
theorem stdSign_nonneg (l : List ℚ) : 0 ≤ stdSign l := by
  unfold stdSign
  split_ifs
  · exact le_refl 0
  · norm_num

/-- Witness for `r_squared_bounds` on the quadratic-exact frame. -/
theorem r_squared_bounds_witness :
    ∃ r, (fit_sector_curves quadKernel 5 none
        (PortfolioAnalyzer.init dfExactQuad "quadratic")).regressionResults.lookup "A"
          = some r ∧
      0 ≤ r.r_squared ∧ r.r_squared ≤ 1 ∧ 0 ≤ r.residual_std := by
  have hsome : ((fit_sector_curves quadKernel 5 none
      (PortfolioAnalyzer.init dfExactQuad "quadratic")).regressionResults.lookup "A").isSome := by
    rw [fit_regs_lookup quadKernel 5 (PortfolioAnalyzer.init dfExactQuad "quadratic")
      (by decide) "A"]
    simp [uniqueSectors, quadEntry, fit_single_curve, PortfolioAnalyzer.init, dfExactQuad,
      bondAt, sampleBond, isClean, MIN_SAMPLES_FOR_REGRESSION]
  rcases Option.isSome_iff_exists.1 hsome with ⟨r, hr⟩
  have hb := (r_squared_bounds quadKernel (fun l => stdSign_nonneg l) 5
    (PortfolioAnalyzer.init dfExactQuad "quadratic") "A").1 r hr
  exact ⟨r, hr, hb.1, hb.2.1, hb.2.2.1⟩

/-- Counterexample to C8 as stated for the Nelson-Siegel family: with
the optimizer interface instantiated by the within-bounds parameter
vector (1/2, 0, 0, 1) — on which the repository's `nelson_siegel`
function is exactly the constant 1/2 — the frame `dfNsBad` (yields near
1%, one at 5%) gets a fitted sector whose stored R² is negative: the
code computes `1 − SS_res/SS_tot` with no lower clamp, and the constant
1/2 fits these yields far worse than their mean does. -/
theorem r_squared_bounds_counterexample :
    (((fit_sector_curves nsConstKernel 5 none
        (PortfolioAnalyzer.init dfNsBad "nelson_siegel")).nsResults.lookup "A").isSome
      = true) ∧
    ((((fit_sector_curves nsConstKernel 5 none
        (PortfolioAnalyzer.init dfNsBad "nelson_siegel")).nsResults.lookup "A").map
          NelsonSiegelResult.r_squared).getD 0 < 0) := by
  rw [fit_ns_lookup nsConstKernel 5 (PortfolioAnalyzer.init dfNsBad "nelson_siegel") rfl "A"]
  constructor
  · simp [uniqueSectors, nsEntry, fit_nelson_siegel_curve, nsConstKernel,
      PortfolioAnalyzer.init, dfNsBad, bondAt, sampleBond, isClean, MIN_SAMPLES_FOR_REGRESSION]
  · norm_num [uniqueSectors, nsEntry, fit_nelson_siegel_curve, nsConstKernel,
      PortfolioAnalyzer.init, dfNsBad, bondAt, sampleBond, isClean, cleanPts,
      MIN_SAMPLES_FOR_REGRESSION, ssTot, meanY, sumBy, mS, mT]

/-! ### Helper lemmas: maps that only rewrite the derived columns

`DerivedOnly g` says the row map `g` rewrites at most the three derived
columns (`Model_Yield`, `Residual`, `Z_Score`) of a row — which is what
one pass of `_calculate_z_scores` does — leaving every input column
unchanged. -/

def DerivedOnly (g : Bond → Bond) : Prop :=
  ∀ bd, ∃ my res z, g bd = { bd with modelYield := my, residual := res, zScore := z }

theorem DerivedOnly.sector {g : Bond → Bond} (hg : DerivedOnly g) (bd : Bond) :
    (g bd).sector = bd.sector := by
  rcases hg bd with ⟨my, res, z, h⟩; rw [h]

theorem DerivedOnly.duration {g : Bond → Bond} (hg : DerivedOnly g) (bd : Bond) :
    (g bd).duration = bd.duration := by
  rcases hg bd with ⟨my, res, z, h⟩; rw [h]

theorem DerivedOnly.yld {g : Bond → Bond} (hg : DerivedOnly g) (bd : Bond) :
    (g bd).yld = bd.yld := by
  rcases hg bd with ⟨my, res, z, h⟩; rw [h]

theorem DerivedOnly.nominal {g : Bond → Bond} (hg : DerivedOnly g) (bd : Bond) :
    (g bd).nominal = bd.nominal := by
  rcases hg bd with ⟨my, res, z, h⟩; rw [h]

theorem DerivedOnly.netCarry {g : Bond → Bond} (hg : DerivedOnly g) (bd : Bond) :
    (g bd).netCarry = bd.netCarry := by
  rcases hg bd with ⟨my, res, z, h⟩; rw [h]

theorem DerivedOnly.liquidity {g : Bond → Bond} (hg : DerivedOnly g) (bd : Bond) :
    (g bd).liquidity = bd.liquidity := by
  rcases hg bd with ⟨my, res, z, h⟩; rw [h]

theorem DerivedOnly.isTradeable {g : Bond → Bond} (hg : DerivedOnly g) (bd : Bond) :
    (g bd).isTradeable = bd.isTradeable := by
  rcases hg bd with ⟨my, res, z, h⟩; rw [h]

theorem DerivedOnly.accounting {g : Bond → Bond} (hg : DerivedOnly g) (bd : Bond) :
    (g bd).accounting = bd.accounting := by
  rcases hg bd with ⟨my, res, z, h⟩; rw [h]

theorem DerivedOnly.isClean_eq {g : Bond → Bond} (hg : DerivedOnly g) (bd : Bond) :
    isClean (g bd) = isClean bd := by
  unfold isClean
  rw [hg.duration, hg.yld]

theorem scoreQuad_derivedOnly (regs : List (String × RegressionResult)) :
    DerivedOnly (scoreQuad regs) :=
  fun bd => scoreQuad_decomp regs bd

theorem scoreNS_derivedOnly (k : NumKernel) (nss : List (String × NelsonSiegelResult)) :
    DerivedOnly (scoreNS k nss) :=
  fun bd => scoreNS_decomp k nss bd

/-- Filtering by a predicate insensitive to `g` commutes with mapping. -/
theorem filter_map_comm (g : Bond → Bond) (p : Bond → Bool)
    (hp : ∀ bd, p (g bd) = p bd) (df : List Bond) :
    (df.map g).filter p = (df.filter p).map g := by
  rw [List.filter_map]
  congr 1
  apply List.filter_congr
  intro bd _
  exact hp bd

theorem uniqueSectors_map (g : Bond → Bond) (hg : DerivedOnly g) (df : List Bond) :
    uniqueSectors (df.map g) = uniqueSectors df := by
  unfold uniqueSectors
  rw [List.foldl_map]
  simp only [hg.sector]

theorem cleanPts_map (g : Bond → Bond) (hg : DerivedOnly g) (l : List Bond) :
    cleanPts (l.map g) = cleanPts l := by
  unfold cleanPts
  rw [filter_map_comm g isClean hg.isClean_eq l, List.map_map]
  apply List.map_congr_left
  intro bd _
  simp [Function.comp, hg.duration, hg.yld]

theorem fit_single_curve_map (k : NumKernel) (sec : String) (g : Bond → Bond)
    (hg : DerivedOnly g) (l : List Bond) :
    fit_single_curve k sec (l.map g) = fit_single_curve k sec l := by
  simp only [fit_single_curve, filter_map_comm g isClean hg.isClean_eq, List.length_map,
    cleanPts_map g hg]

theorem fit_nelson_siegel_curve_map (k : NumKernel) (sec : String) (g : Bond → Bond)
    (hg : DerivedOnly g) (l : List Bond) :
    fit_nelson_siegel_curve k sec (l.map g) = fit_nelson_siegel_curve k sec l := by
  simp only [fit_nelson_siegel_curve, filter_map_comm g isClean hg.isClean_eq, List.length_map,
    cleanPts_map g hg]

theorem sector_filter_map (g : Bond → Bond) (hg : DerivedOnly g) (df : List Bond)
    (sec : String) :
    (df.map g).filter (fun bd => bd.sector == sec) = (df.filter (fun bd => bd.sector == sec)).map g :=
  filter_map_comm g _ (fun bd => by rw [hg.sector]) df

theorem quadEntry_map (k : NumKernel) (m : ℕ) (sec : String) (s s' : AnalyzerState)
    (g : Bond → Bond) (hg : DerivedOnly g) (hdf : s'.df = s.df.map g) :
    quadEntry k s' m sec = quadEntry k s m sec := by
  unfold quadEntry
  rw [hdf, sector_filter_map g hg, List.length_map, fit_single_curve_map k sec g hg]

theorem nsEntry_map (k : NumKernel) (m : ℕ) (sec : String) (s s' : AnalyzerState)
    (g : Bond → Bond) (hg : DerivedOnly g) (hdf : s'.df = s.df.map g) :
    nsEntry k s' m sec = nsEntry k s m sec := by
  unfold nsEntry
  rw [hdf, sector_filter_map g hg, List.length_map, fit_nelson_siegel_curve_map k sec g hg]

theorem scoreQuad_update (regs : List (String × RegressionResult)) (bd : Bond)
    (my res z : Option ℚ) :
    scoreQuad regs { bd with modelYield := my, residual := res, zScore := z }
      = scoreQuad regs bd := by
  unfold scoreQuad
  have hsec : ({ bd with modelYield := my, residual := res, zScore := z } : Bond).sector
      = bd.sector := rfl
  rw [hsec]
  cases regs.lookup bd.sector with
  | none => rfl
  | some r => rfl

theorem scoreNS_update (k : NumKernel) (nss : List (String × NelsonSiegelResult)) (bd : Bond)
    (my res z : Option ℚ) :
    scoreNS k nss { bd with modelYield := my, residual := res, zScore := z }
      = scoreNS k nss bd := by
  unfold scoreNS
  have hsec : ({ bd with modelYield := my, residual := res, zScore := z } : Bond).sector
      = bd.sector := rfl
  rw [hsec]
  cases nss.lookup bd.sector with
  | none => rfl
  | some r => rfl

theorem scoreQuad_idem (regs : List (String × RegressionResult)) (bd : Bond) :
    scoreQuad regs (scoreQuad regs bd) = scoreQuad regs bd := by
  rcases scoreQuad_decomp regs bd with ⟨my, res, z, h⟩
  rw [h, scoreQuad_update, h]

theorem scoreNS_idem (k : NumKernel) (nss : List (String × NelsonSiegelResult)) (bd : Bond) :
    scoreNS k nss (scoreNS k nss bd) = scoreNS k nss bd := by
  rcases scoreNS_decomp k nss bd with ⟨my, res, z, h⟩
  rw [h, scoreNS_update, h]

theorem analyzerState_ext (a b : AnalyzerState) (h1 : a.df = b.df)
    (h2 : a.modelType = b.modelType) (h3 : a.regressionResults = b.regressionResults)
    (h4 : a.nsResults = b.nsResults) (h5 : a.isFitted = b.isFitted) : a = b := by
  cases a
  cases b
  cases h1
  cases h2
  cases h3
  cases h4
  cases h5
  rfl

/-- C6: `fit_sector_curves` is idempotent — the derived columns and
both result dictionaries are rebuilt from the input columns alone,
which a fit never modifies, so fitting an already-fitted analyzer with
the same arguments changes nothing: curve parameters, statistics and
Z-scores all coincide with a single fit's.  As the embedding is a pure
function of the analyzer state and the kernel, this also expresses
determinism: re-running on unchanged input reproduces identical
results. -/
theorem fit_sector_curves_idem (k : NumKernel) (m : ℕ) (sa : Option (List String))
    (s : AnalyzerState) :
    fit_sector_curves k m sa (fit_sector_curves k m sa s) = fit_sector_curves k m sa s := by
  cases hmt : (s.modelType == "nelson_siegel") with
  | false =>
    have hmt1 : ((fit_sector_curves k m sa s).modelType == "nelson_siegel") = false := hmt
    have hg : DerivedOnly (scoreQuad (fit_sector_curves k m sa s).regressionResults) :=
      scoreQuad_derivedOnly _
    have hdf : (fit_sector_curves k m sa s).df
        = s.df.map (scoreQuad (fit_sector_curves k m sa s).regressionResults) :=
      fit_df_quad k m sa s hmt
    have hsecs : sa.getD (uniqueSectors (fit_sector_curves k m sa s).df)
        = sa.getD (uniqueSectors s.df) := by
      cases sa with
      | none =>
        simp only [Option.getD]
        rw [hdf, uniqueSectors_map _ hg]
      | some l => rfl
    have hent : ∀ sec, quadEntry k (fit_sector_curves k m sa s) m sec = quadEntry k s m sec :=
      fun sec => quadEntry_map k m sec s (fit_sector_curves k m sa s) _ hg hdf
    have hfun : (fun sec => (quadEntry k (fit_sector_curves k m sa s) m sec).map
          (fun rr => (sec, rr)))
        = (fun sec => (quadEntry k s m sec).map (fun rr => (sec, rr))) := by
      funext sec
      rw [hent sec]
    have hregs : (fit_sector_curves k m sa (fit_sector_curves k m sa s)).regressionResults
        = (fit_sector_curves k m sa s).regressionResults := by
      show ((sa.getD (uniqueSectors (fit_sector_curves k m sa s).df)).foldl
          (fitStep k (fit_sector_curves k m sa s) m) ([], [])).1 = _
      rw [foldl_fitStep_quad k (fit_sector_curves k m sa s) m hmt1, hsecs, hfun]
      show _ = ((sa.getD (uniqueSectors s.df)).foldl (fitStep k s m) ([], [])).1
      rw [foldl_fitStep_quad k s m hmt]
    have hnss : (fit_sector_curves k m sa (fit_sector_curves k m sa s)).nsResults
        = (fit_sector_curves k m sa s).nsResults := by
      show ((sa.getD (uniqueSectors (fit_sector_curves k m sa s).df)).foldl
          (fitStep k (fit_sector_curves k m sa s) m) ([], [])).2 = _
      rw [foldl_fitStep_quad k (fit_sector_curves k m sa s) m hmt1]
      show _ = ((sa.getD (uniqueSectors s.df)).foldl (fitStep k s m) ([], [])).2
      rw [foldl_fitStep_quad k s m hmt]
    have hdf2 : (fit_sector_curves k m sa (fit_sector_curves k m sa s)).df
        = (fit_sector_curves k m sa s).df := by
      rw [fit_df_quad k m sa (fit_sector_curves k m sa s) hmt1, hregs, hdf, List.map_map]
      apply List.map_congr_left
      intro bd _
      show scoreQuad _ (scoreQuad _ bd) = scoreQuad _ bd
      exact scoreQuad_idem _ bd
    exact analyzerState_ext _ _ hdf2 rfl hregs hnss rfl
  | true =>
    have hmt1 : ((fit_sector_curves k m sa s).modelType == "nelson_siegel") = true := hmt
    have hg : DerivedOnly (scoreNS k (fit_sector_curves k m sa s).nsResults) :=
      scoreNS_derivedOnly k _
    have hdf : (fit_sector_curves k m sa s).df
        = s.df.map (scoreNS k (fit_sector_curves k m sa s).nsResults) :=
      fit_df_ns k m sa s hmt
    have hsecs : sa.getD (uniqueSectors (fit_sector_curves k m sa s).df)
        = sa.getD (uniqueSectors s.df) := by
      cases sa with
      | none =>
        simp only [Option.getD]
        rw [hdf, uniqueSectors_map _ hg]
      | some l => rfl
    have hent : ∀ sec, nsEntry k (fit_sector_curves k m sa s) m sec = nsEntry k s m sec :=
      fun sec => nsEntry_map k m sec s (fit_sector_curves k m sa s) _ hg hdf
    have hfun : (fun sec => (nsEntry k (fit_sector_curves k m sa s) m sec).map
          (fun rr => (sec, rr)))
        = (fun sec => (nsEntry k s m sec).map (fun rr => (sec, rr))) := by
      funext sec
      rw [hent sec]
    have hnss : (fit_sector_curves k m sa (fit_sector_curves k m sa s)).nsResults
        = (fit_sector_curves k m sa s).nsResults := by
      show ((sa.getD (uniqueSectors (fit_sector_curves k m sa s).df)).foldl
          (fitStep k (fit_sector_curves k m sa s) m) ([], [])).2 = _
      rw [foldl_fitStep_ns k (fit_sector_curves k m sa s) m hmt1, hsecs, hfun]
      show _ = ((sa.getD (uniqueSectors s.df)).foldl (fitStep k s m) ([], [])).2
      rw [foldl_fitStep_ns k s m hmt]
    have hregs : (fit_sector_curves k m sa (fit_sector_curves k m sa s)).regressionResults
        = (fit_sector_curves k m sa s).regressionResults := by
      show ((sa.getD (uniqueSectors (fit_sector_curves k m sa s).df)).foldl
          (fitStep k (fit_sector_curves k m sa s) m) ([], [])).1 = _
      rw [foldl_fitStep_ns k (fit_sector_curves k m sa s) m hmt1]
      show _ = ((sa.getD (uniqueSectors s.df)).foldl (fitStep k s m) ([], [])).1
      rw [foldl_fitStep_ns k s m hmt]
    have hdf2 : (fit_sector_curves k m sa (fit_sector_curves k m sa s)).df
        = (fit_sector_curves k m sa s).df := by
      rw [fit_df_ns k m sa (fit_sector_curves k m sa s) hmt1, hnss, hdf, List.map_map]
      apply List.map_congr_left
      intro bd _
      show scoreNS k _ (scoreNS k _ bd) = scoreNS k _ bd
      exact scoreNS_idem k _ bd
    exact analyzerState_ext _ _ hdf2 rfl hregs hnss rfl

theorem sumBy_map_of_eq (f : Bond → ℚ) (g : Bond → Bond) (h : ∀ bd, f (g bd) = f bd)
    (l : List Bond) : sumBy f (l.map g) = sumBy f l := by
  unfold sumBy
  rw [List.map_map]
  congr 1
  apply List.map_congr_left
  intro bd _
  exact h bd

theorem uniqueKeys_map (keyOf : Bond → String) (g : Bond → Bond)
    (h : ∀ bd, keyOf (g bd) = keyOf bd) (df : List Bond) :
    uniqueKeys keyOf (df.map g) = uniqueKeys keyOf df := by
  unfold uniqueKeys
  rw [List.foldl_map]
  simp only [h]

theorem exposuresBy_map (keyOf : Bond → String) (g : Bond → Bond) (hg : DerivedOnly g)
    (hk : ∀ bd, keyOf (g bd) = keyOf bd) (df : List Bond) :
    exposuresBy keyOf (df.map g) = exposuresBy keyOf df := by
  unfold exposuresBy
  rw [uniqueKeys_map keyOf g hk]
  congr 1
  apply List.map_congr_left
  intro sec _
  congr 1
  rw [filter_map_comm g _ (fun bd => by rw [hk]) df,
    sumBy_map_of_eq Bond.nominal g hg.nominal]

theorem weightedAvg_map (g : Bond → Bond) (hg : DerivedOnly g) (col : Bond → Option ℚ)
    (hcol : ∀ bd, col (g bd) = col bd) (df : List Bond) :
    weightedAvg (df.map g) col = weightedAvg df col := by
  unfold weightedAvg
  rw [sumBy_map_of_eq Bond.nominal g hg.nominal df, List.filterMap_map]
  have hfun : ((fun bd => (col bd).map (fun v => v * bd.nominal)) ∘ g)
      = (fun bd => (col bd).map (fun v => v * bd.nominal)) := by
    funext bd
    simp only [Function.comp]
    rw [hcol, hg.nominal]
  rw [hfun]

/-- The portfolio metrics read only input columns, so one scoring pass
over the frame leaves them unchanged. -/
theorem metrics_map_invariant (g : Bond → Bond) (hg : DerivedOnly g) (df : List Bond) :
    calculate_portfolio_metrics (df.map g) = calculate_portfolio_metrics df := by
  unfold calculate_portfolio_metrics
  have e1 := filter_map_comm g (fun bd => optLt bd.netCarry 0)
    (fun bd => show optLt (g bd).netCarry 0 = optLt bd.netCarry 0 by rw [hg.netCarry]) df
  have e2 := filter_map_comm g (fun bd => bd.accounting == "HTM")
    (fun bd => show ((g bd).accounting == "HTM") = (bd.accounting == "HTM") by
      rw [hg.accounting]) df
  have e3 := filter_map_comm g Bond.isTradeable (fun bd => hg.isTradeable bd) df
  simp only [e1, e2, e3, List.length_map, sumBy_map_of_eq Bond.nominal g hg.nominal,
    weightedAvg_map g hg Bond.duration hg.duration,
    weightedAvg_map g hg Bond.yld hg.yld,
    weightedAvg_map g hg Bond.netCarry hg.netCarry,
    exposuresBy_map Bond.sector g hg hg.sector,
    exposuresBy_map Bond.accounting g hg hg.accounting]

/-- The report is a function of the pre-fit metrics and the post-fit
analyzer state only. -/
theorem genSummary_congr (k : NumKernel) (s s' : AnalyzerState)
    (hm : calculate_portfolio_metrics s.df = calculate_portfolio_metrics s'.df)
    (hs1 : (if s.isFitted then s
            else fit_sector_curves k MIN_SAMPLES_FOR_REGRESSION none s)
         = (if s'.isFitted then s'
            else fit_sector_curves k MIN_SAMPLES_FOR_REGRESSION none s')) :
    generate_executive_summary k s = generate_executive_summary k s' := by
  simp only [generate_executive_summary]
  rw [hm, hs1]

/-- C9: `generate_executive_summary` is a deterministic function of the
analyzer's portfolio state — in this embedding it takes no randomness
and no hidden inputs — and calling it twice in a row on the same
analyzer yields the identical markdown string and final state: its only
side effect is the implicit first fit of `get_sector_summary`, whose
derived-column rewrites do not feed the pre-fit metrics the report
uses. -/
theorem executive_summary_deterministic (k : NumKernel) (s : AnalyzerState) :
    generate_executive_summary k (generate_executive_summary k s).2
      = generate_executive_summary k s := by
  by_cases hf : s.isFitted
  · have h2 : (generate_executive_summary k s).2 = s := by
      simp [generate_executive_summary, hf]
    rw [h2]
  · have h2 : (generate_executive_summary k s).2
        = fit_sector_curves k MIN_SAMPLES_FOR_REGRESSION none s := by
      simp [generate_executive_summary, hf]
    have hfit1 : (fit_sector_curves k MIN_SAMPLES_FOR_REGRESSION none s).isFitted = true := rfl
    have hmetrics : calculate_portfolio_metrics
        (fit_sector_curves k MIN_SAMPLES_FOR_REGRESSION none s).df
        = calculate_portfolio_metrics s.df := by
      cases hmt : (s.modelType == "nelson_siegel") with
      | false =>
        rw [fit_df_quad k MIN_SAMPLES_FOR_REGRESSION none s hmt]
        exact metrics_map_invariant _ (scoreQuad_derivedOnly _) _
      | true =>
        rw [fit_df_ns k MIN_SAMPLES_FOR_REGRESSION none s hmt]
        exact metrics_map_invariant _ (scoreNS_derivedOnly k _) _
    rw [h2]
    exact genSummary_congr k (fit_sector_curves k MIN_SAMPLES_FOR_REGRESSION none s) s
      hmetrics (by rw [if_pos hfit1, if_neg hf])

theorem readCell_writeCell_ne (h : PandasHeap) (i j : ℕ) (v : List Bond) (hij : j ≠ i) :
    readCell (writeCell h i v) j = readCell h j := by
  unfold readCell writeCell
  rw [List.getD_eq_getElem?_getD, List.getD_eq_getElem?_getD, List.getElem?_set_ne]
  omega

/-- A single analyzer operation writes at most the analyzer's own frame
cell and never moves its reference. -/
theorem runOp_frame (k : NumKernel) (p : PandasHeap × AnalyzerObj) (op : AnalyzerOp) :
    (runOp k p op).2.dfRef = p.2.dfRef ∧
    ∀ j, j ≠ p.2.dfRef → readCell (runOp k p op).1 j = readCell p.1 j := by
  cases op with
  | fitCurves m secs =>
    exact ⟨rfl, fun j hj => readCell_writeCell_ne p.1 p.2.dfRef j _ hj⟩
  | sell t mnc excl => exact ⟨rfl, fun j _ => rfl⟩
  | buy t mnc minLiq => exact ⟨rfl, fun j _ => rfl⟩
  | bleeding excl => exact ⟨rfl, fun j _ => rfl⟩
  | metrics => exact ⟨rfl, fun j _ => rfl⟩
  | summary =>
    exact ⟨rfl, fun j hj => readCell_writeCell_ne p.1 p.2.dfRef j _ hj⟩

theorem runOps_frame (k : NumKernel) (ops : List AnalyzerOp) :
    ∀ p : PandasHeap × AnalyzerObj,
      (runOps k p ops).2.dfRef = p.2.dfRef ∧
      ∀ j, j ≠ p.2.dfRef → readCell (runOps k p ops).1 j = readCell p.1 j := by
  induction ops with
  | nil => exact fun p => ⟨rfl, fun j _ => rfl⟩
  | cons op t ih =>
    intro p
    rcases runOp_frame k p op with ⟨href, hcells⟩
    rcases ih (runOp k p op) with ⟨href', hcells'⟩
    refine ⟨by rw [show runOps k p (op :: t) = runOps k (runOp k p op) t from rfl, href', href],
      fun j hj => ?_⟩
    rw [show runOps k p (op :: t) = runOps k (runOp k p op) t from rfl,
      hcells' j (by rw [href]; exact hj), hcells j hj]

/-- C10: the caller's DataFrame is never modified by the analyzer —
`__init__` copies it into a fresh cell, and every subsequent operation
(fits, screeners, metrics, the summary with its implicit fit) writes at
most the analyzer's own cell, so the caller's cell reads back unchanged
after any call sequence. -/
theorem constructor_copy_frame (k : NumKernel) (h : PandasHeap) (callerRef : ℕ)
    (mt : String) (ops : List AnalyzerOp) (hc : callerRef < h.cells.length) :
    readCell (runOps k (analyzer_init_heap h callerRef mt) ops).1 callerRef
      = readCell h callerRef := by
  have hobj : (analyzer_init_heap h callerRef mt).2.dfRef = h.cells.length := rfl
  have hne : callerRef ≠ (analyzer_init_heap h callerRef mt).2.dfRef := by
    rw [hobj]
    omega
  rcases runOps_frame k ops (analyzer_init_heap h callerRef mt) with ⟨-, hcells⟩
  rw [hcells callerRef hne]
  show (h.cells ++ [readCell h callerRef]).getD callerRef [] = readCell h callerRef
  rw [List.getD_eq_getElem?_getD, List.getElem?_append_left hc, readCell,
    List.getD_eq_getElem?_getD]

/-- Witness for `constructor_copy_frame` on a one-cell heap and a call
sequence exercising every operation kind. -/
theorem constructor_copy_frame_witness :
    0 < heapW.cells.length ∧
    readCell (runOps quadKernel (analyzer_init_heap heapW 0 "quadratic") opsW).1 0
      = readCell heapW 0 :=
  ⟨by decide, constructor_copy_frame quadKernel heapW 0 "quadratic" opsW (by decide)⟩
